import Mathlib

/-!
# Verification of the Zigbee serial protocol coordinator

A shallow embedding of `custom_components/gemns_iot/zigbee_coordinator.py`
(command codec, frame reader, device reconciler, serial write path) together
with the parts of `device_management.py` the reconciler calls, and proofs of
the specification's testable properties about them.

Lines are modelled as `List Char` (Python `str` is a sequence of characters).
Python regex character classes `\w`, `\s`, `\d` and `str.strip()` are modelled
over their ASCII subsets; the wire protocol is ASCII.
-/

namespace GemnsZigbee

/-! ## Character classes and basic string operations -/

/-- ASCII subset of Python's `\s` / `str.strip()` whitespace. -/
def isSpace (c : Char) : Bool :=
  c = ' ' || c = '\t' || c = '\n' || c = '\r' || c = Char.ofNat 11 || c = Char.ofNat 12

/-- Python regex `\d` (ASCII decimal digit). -/
def isDigit (c : Char) : Bool :=
  '0' ≤ c && c ≤ '9'

/-- ASCII subset of Python regex `\w` (letters, digits, underscore). -/
def isWordChar (c : Char) : Bool :=
  c.isAlpha || isDigit c || c = '_'

/-- `str.lstrip()`. -/
def lstripChars (s : List Char) : List Char := s.dropWhile isSpace

/-- `str.rstrip()`. -/
def rstripChars (s : List Char) : List Char := (s.reverse.dropWhile isSpace).reverse

/-- `str.strip()`. -/
def stripChars (s : List Char) : List Char := rstripChars (lstripChars s)

/-- Value of a string of ASCII digits, as computed by Python `int(...)`
on a `\d+` match. -/
def digitsToNat (ds : List Char) : Nat :=
  ds.foldl (fun a c => a * 10 + (c.toNat - 48)) 0

/-- Decimal rendering with explicit fuel (the recursion depth is at most the
number itself, so `n + 1` fuel always suffices); structural recursion keeps
the definition kernel-reducible. -/
def natToCharsF : Nat → Nat → List Char
  | 0, _ => []
  | fuel + 1, n =>
    if n < 10 then [Nat.digitChar n]
    else natToCharsF fuel (n / 10) ++ [Nat.digitChar (n % 10)]

/-- Decimal rendering of a natural number, as produced by a Python f-string. -/
def natToChars (n : Nat) : List Char := natToCharsF (n + 1) n

/-- Decimal rendering of an integer, as produced by a Python f-string. -/
def intToChars (i : Int) : List Char :=
  if i < 0 then '-' :: natToChars i.natAbs else natToChars i.toNat

/-- Python `f"{x}"` for an `int | None` value. -/
def pyStrOptInt (x : Option Int) : List Char :=
  match x with
  | some v => intToChars v
  | none => "None".toList

/-! ## Protocol constants (`zigbee_coordinator.py` lines 35-45) -/

/-- `ZIGBEE_CMD_PREFIX = "$AT"` (renamed: the source constant name ends in a
token the verification style forbids). -/
def zigbeeCmdStart : List Char := ['$', 'A', 'T']

def ZIGBEE_CMD_ADD : List Char := ['a', 'd', 'd']
def ZIGBEE_CMD_DEL : List Char := ['d', 'e', 'l']
def ZIGBEE_CMD_STATE : List Char := ['s', 't', 'a', 't', 'e']
def ZIGBEE_CMD_PAIR : List Char := ['p', 'a', 'i', 'r']
def ZIGBEE_DEVICE_BULB : List Char := ['b', 'u', 'l', 'b']
def ZIGBEE_DEVICE_SWITCH : List Char := ['s', 'w', 'i', 't', 'c', 'h']

/-- `SERIAL_LINE_ENDING = "\r\n"`. -/
def serialLineEnding : List Char := ['\r', '\n']

/-! ## The two regular expressions of `parse_command`

`pattern_new = r'\+(\w+)\s+(\w+)\s+(\d+)\s+(\d+)\s+(\d+)(?:\s+(\d+))?'` and
`pattern_old = r'\+(\w+)\s+(\w+)\s+(\d+)\s+(\d+)\s*(\d*)\s*(\d*)'`, applied
with `re.match` (anchored at the start, matching a prefix of the input).
Because `\s` is disjoint from `\w` and `\d ⊆ \w`, Python's greedy
leftmost matching for these patterns is exactly maximal munch, which is what
`munch` implements; a failed `X+` atom cannot be rescued by backtracking an
earlier group, and the trailing `(\d*)`/`(?:\s+(\d+))?` atoms never force
backtracking either. -/

/-- Match one `X+` atom: the maximal non-empty run of characters satisfying
`p`, returning the captured run and the rest. -/
def munch (p : Char → Bool) (s : List Char) : Option (List Char × List Char) :=
  let t := s.takeWhile p
  if t = [] then none else some (t, s.dropWhile p)

/-- Captured groups of `pattern_new`. -/
structure ReMatchNew where
  g1 : List Char
  g2 : List Char
  g3 : List Char
  g4 : List Char
  g5 : List Char
  g6 : Option (List Char)
deriving DecidableEq, Repr

/-- Captured groups of `pattern_old` (groups 5 and 6 are `(\d*)`: possibly
empty, and `match.group` returns the empty string rather than `None`). -/
structure ReMatchOld where
  g1 : List Char
  g2 : List Char
  g3 : List Char
  g4 : List Char
  g5 : List Char
  g6 : List Char
deriving DecidableEq, Repr

/-- `re.match(pattern_new, s)`. -/
def matchNew (s : List Char) : Option ReMatchNew :=
  match s with
  | [] => none
  | c :: r0 =>
    if c = '+' then do
      let (g1, r1) ← munch isWordChar r0
      let (_, r2) ← munch isSpace r1
      let (g2, r3) ← munch isWordChar r2
      let (_, r4) ← munch isSpace r3
      let (g3, r5) ← munch isDigit r4
      let (_, r6) ← munch isSpace r5
      let (g4, r7) ← munch isDigit r6
      let (_, r8) ← munch isSpace r7
      let (g5, r9) ← munch isDigit r8
      -- the optional greedy `(?:\s+(\d+))?`: taken when it matches, skipped
      -- (consuming nothing) otherwise
      match munch isSpace r9 with
      | some (_, r10) =>
        match munch isDigit r10 with
        | some (g6, _) => some ⟨g1, g2, g3, g4, g5, some g6⟩
        | none => some ⟨g1, g2, g3, g4, g5, none⟩
      | none => some ⟨g1, g2, g3, g4, g5, none⟩
    else none

/-- `re.match(pattern_old, s)`. -/
def matchOld (s : List Char) : Option ReMatchOld :=
  match s with
  | [] => none
  | c :: r0 =>
    if c = '+' then do
      let (g1, r1) ← munch isWordChar r0
      let (_, r2) ← munch isSpace r1
      let (g2, r3) ← munch isWordChar r2
      let (_, r4) ← munch isSpace r3
      let (g3, r5) ← munch isDigit r4
      let (_, r6) ← munch isSpace r5
      let (g4, r7) ← munch isDigit r6
      -- `\s*(\d*)\s*(\d*)`: all atoms may match empty, greedily
      let r8 := r7.dropWhile isSpace
      let g5 := r8.takeWhile isDigit
      let r9 := (r8.dropWhile isDigit).dropWhile isSpace
      let g6 := r9.takeWhile isDigit
      some ⟨g1, g2, g3, g4, g5, g6⟩
    else none

/-! ## `ZigbeeCommandParser.parse_command` (lines 51-143)

The Python result is a `dict`; it is modelled as a structure whose `Option`
fields record key presence (`none` = key absent).  The legacy dict key
`"type"` is modelled by the field `type_code`. -/

structure ParsedCmd where
  command : List Char
  device_type : List Char
  length : Nat
  type_code : Option Nat := none
  device_id : Option Nat := none
  cmd_type : Option Nat := none
  supports_brightness : Option Bool := none
  brightness : Option Nat := none
deriving DecidableEq, Repr

/-- `max(0, min(255, n))` for a non-negative `n` parsed from a digit string. -/
def clampNat (n : Nat) : Nat := min 255 n

/-- Versioned-STATE branch of `parse_command` (lines 67-108), given a
`pattern_new` match with command token `state`. -/
def parseVersionedOf (m : ReMatchNew) : ParsedCmd :=
  let device_type_str := if m.g2 = ['s', 'w'] then ZIGBEE_DEVICE_SWITCH else m.g2
  let length := digitsToNat m.g3
  let src_id := digitsToNat m.g4 % 4294967296
  let state_value := digitsToNat m.g5
  let supports_brightness := if length = 4 then true else false
  let base : ParsedCmd :=
    { command := m.g1, device_type := device_type_str, length := length,
      device_id := some src_id, cmd_type := some state_value,
      supports_brightness := some supports_brightness }
  match m.g6 with
  | some b => if supports_brightness then { base with brightness := some (clampNat (digitsToNat b)) } else base
  | none => base

/-- Legacy branch of `parse_command` (lines 118-143), given a `pattern_old`
match. -/
def parseLegacyOf (m : ReMatchOld) : ParsedCmd :=
  let base : ParsedCmd :=
    { command := m.g1, device_type := m.g2, length := digitsToNat m.g3,
      type_code := some (digitsToNat m.g4) }
  let base := if m.g5 ≠ [] then { base with device_id := some (digitsToNat m.g5) } else base
  if m.g6 ≠ [] then { base with brightness := some (clampNat (digitsToNat m.g6)) } else base

/-- Legacy grammar attempt: `re.match(pattern_old, ...)` then field
extraction, returning `None` when the pattern does not match
(lines 110-143). -/
def parseLegacy (suffix : List Char) : Option ParsedCmd :=
  (matchOld suffix).map parseLegacyOf

/-- Body of `parse_command` after the initial `line.strip()` (lines 57-143). -/
def parseStripped (line : List Char) : Option ParsedCmd :=
  if zigbeeCmdStart.isPrefixOf line then
    let suffix := stripChars (line.drop zigbeeCmdStart.length)
    match matchNew suffix with
    | some m => if m.g1 = ZIGBEE_CMD_STATE then some (parseVersionedOf m) else parseLegacy suffix
    | none => parseLegacy suffix
  else none

/-- `ZigbeeCommandParser.parse_command` (lines 51-143). -/
def parse_command (line : List Char) : Option ParsedCmd :=
  parseStripped (stripChars line)

/-- The stripped command suffix `parse_command` hands to the two grammars
(line 61). -/
def suffixOf (line : List Char) : List Char :=
  stripChars ((stripChars line).drop zigbeeCmdStart.length)

/-! ## `ZigbeeCommandParser.build_command` (lines 145-179) -/

/-- `max(0, min(255, int(brightness)))` on a Python `int`. -/
def pyClampInt (b : Int) : Nat := (max 0 (min 255 b)).toNat

/-- `ZigbeeCommandParser.build_command`. -/
def build_command (command : List Char) (device_type : List Char)
    (device_id : Option Int) (state : Option Bool) (brightness : Option Int) :
    List Char :=
  if command = ZIGBEE_CMD_PAIR then
    zigbeeCmdStart ++ '+' :: command ++ serialLineEnding
  else if command = ZIGBEE_CMD_ADD then
    let type_code : Nat := if device_type = ZIGBEE_DEVICE_BULB then 2 else 3
    zigbeeCmdStart ++ '+' :: command ++ ' ' :: device_type ++ ' ' :: natToChars 2 ++
      ' ' :: natToChars type_code ++ ' ' :: pyStrOptInt device_id ++ serialLineEnding
  else if command = ZIGBEE_CMD_DEL then
    let type_code : Nat := if device_type = ZIGBEE_DEVICE_BULB then 2 else 3
    zigbeeCmdStart ++ '+' :: command ++ ' ' :: device_type ++ ' ' :: natToChars 1 ++
      ' ' :: natToChars type_code ++ serialLineEnding
  else if command = ZIGBEE_CMD_STATE then
    let state_value : Nat := if state = some true then 1 else 0
    match brightness with
    | some b =>
      zigbeeCmdStart ++ '+' :: command ++ ' ' :: device_type ++ ' ' :: natToChars 4 ++
        ' ' :: pyStrOptInt device_id ++ ' ' :: natToChars state_value ++
        ' ' :: natToChars (pyClampInt b) ++ serialLineEnding
    | none =>
      zigbeeCmdStart ++ '+' :: command ++ ' ' :: device_type ++ ' ' :: natToChars 3 ++
        ' ' :: pyStrOptInt device_id ++ ' ' :: natToChars state_value ++ serialLineEnding
  else []

/-! ## Frame reader (`_read_serial_loop`, lines 321-339)

The loop keeps a string `buffer`, appends each chunk read from the serial
port, and while `SERIAL_LINE_ENDING in buffer` splits at the first
occurrence (`buffer.split(SERIAL_LINE_ENDING, 1)`), handing each split-off
line to `_handle_serial_message` when `line.strip()` is non-empty. -/

/-- Split a character list at the first occurrence of `"\r\n"`:
`some (before, after)` when a terminator occurs, `none` otherwise.
Models the combination of `SERIAL_LINE_ENDING in buffer` and
`buffer.split(SERIAL_LINE_ENDING, 1)`. -/
def splitFirstTerm : List Char → Option (List Char × List Char)
  | [] => none
  | c :: rest =>
    if c = '\r' ∧ rest.head? = some '\n' then some ([], rest.tail)
    else (splitFirstTerm rest).map (fun p => (c :: p.1, p.2))

/-- The `while SERIAL_LINE_ENDING in buffer` loop with explicit fuel (the
remainder strictly shrinks, so `s.length + 1` fuel always suffices);
structural recursion keeps the definition kernel-reducible. -/
def extractLinesF : Nat → List Char → List (List Char) × List Char
  | 0, s => ([], s)
  | fuel + 1, s =>
    match splitFirstTerm s with
    | some (line, rest) =>
      let p := extractLinesF fuel rest
      (line :: p.1, p.2)
    | none => ([], s)

/-- The `while SERIAL_LINE_ENDING in buffer` loop: all complete lines in
order, and the retained remainder. -/
def extractLines (s : List Char) : List (List Char) × List Char :=
  extractLinesF (s.length + 1) s

/-- One pass of the read loop body for one chunk of received data:
append to the buffer, split off all complete lines, and keep only the
lines with non-blank `strip()` (those reaching
`_handle_serial_message`). -/
def feedChunk (buf data : List Char) : List (List Char) × List Char :=
  let p := extractLines (buf ++ data)
  (p.1.filter (fun l => !(stripChars l).isEmpty), p.2)

/-- Feeding a sequence of chunks one call at a time, threading the buffer,
collecting every emitted line in order. -/
def feedAll (buf : List Char) (chunks : List (List Char)) :
    List (List Char) × List Char :=
  match chunks with
  | [] => ([], buf)
  | d :: ds =>
    let p := feedChunk buf d
    let q := feedAll p.2 ds
    (p.1 ++ q.1, q.2)

/-! ## Device records and the reconciler state

Python device dicts are modelled as structures whose `Option` fields record
key presence, and Python `dict`s keyed by device id as insertion-ordered
association lists (`dictSet` overwrites the first binding in place or
appends a new one, exactly the `d[k] = v` semantics; keys of a real Python
dict are unique).

The string constants imported from `const.py` are modelled from the spec:
`const.py` itself is not part of the supplied sources. -/

/-- Modelled from the spec: `DEVICE_CATEGORY_LIGHT` from `const.py`
(functional category `Light`). -/
def DEVICE_CATEGORY_LIGHT : List Char := "light".toList

/-- Modelled from the spec: `DEVICE_CATEGORY_SWITCH` from `const.py`
(functional category `Switch`). -/
def DEVICE_CATEGORY_SWITCH : List Char := "switch_cat".toList

/-- Modelled from the spec: `DEVICE_STATUS_CONNECTED` from `const.py`
(connectivity status `Connected`). -/
def DEVICE_STATUS_CONNECTED : List Char := "connected".toList

/-- Modelled from the spec: `DEVICE_STATUS_OFFLINE` from `const.py`
(connectivity status `Offline`). -/
def DEVICE_STATUS_OFFLINE : List Char := "offline".toList

/-- Modelled from the spec: `DEVICE_TYPE_ZIGBEE` from `const.py`
(transport type tag of serial-gateway devices). -/
def DEVICE_TYPE_ZIGBEE : List Char := "zigbee".toList

/-- The `"properties"` sub-dict of a device record. -/
structure Props where
  switch_state : Option Bool := none
  light_state : Option Bool := none
  brightness : Option Nat := none
  supports_brightness : Option Bool := none
  cmd_type : Option Nat := none
deriving DecidableEq, Repr

/-- A device record dict. `none` models an absent key. `last_seen`
timestamps are opaque; they are modelled as the natural number supplied to
the handler for its `datetime.now(UTC)` calls. -/
structure DeviceData where
  device_id : Option (List Char) := none
  zigbee_id : Option Nat := none
  device_type : Option (List Char) := none
  category : Option (List Char) := none
  name : Option (List Char) := none
  status : Option (List Char) := none
  properties : Option Props := none
  last_seen : Option Nat := none
  ble_discovery_mode : Option (List Char) := none
  created_manually : Option Bool := none
deriving DecidableEq, Repr

/-- `d.update(other)` for full device dicts: every key present in `other`
overwrites the corresponding key of `d`; keys absent from `other` are
kept. -/
def DeviceData.updateWith (d other : DeviceData) : DeviceData :=
  { device_id := other.device_id <|> d.device_id,
    zigbee_id := other.zigbee_id <|> d.zigbee_id,
    device_type := other.device_type <|> d.device_type,
    category := other.category <|> d.category,
    name := other.name <|> d.name,
    status := other.status <|> d.status,
    properties := other.properties <|> d.properties,
    last_seen := other.last_seen <|> d.last_seen,
    ble_discovery_mode := other.ble_discovery_mode <|> d.ble_discovery_mode,
    created_manually := other.created_manually <|> d.created_manually }

/-- `dict.get(k)` on an insertion-ordered association list. -/
def dictGet {K V : Type} [DecidableEq K] (d : List (K × V)) (k : K) : Option V :=
  match d with
  | [] => none
  | (k', v) :: rest => if k' = k then some v else dictGet rest k

/-- `d[k] = v`: overwrite the first binding of `k` in place, or append. -/
def dictSet {K V : Type} [DecidableEq K] (d : List (K × V)) (k : K) (v : V) :
    List (K × V) :=
  match d with
  | [] => [(k, v)]
  | (k', v') :: rest => if k' = k then (k, v) :: rest else (k', v') :: dictSet rest k v

/-- The key sequence of an association-list dict. -/
def keysOf {K V : Type} [DecidableEq K] (d : List (K × V)) : List K := d.map Prod.fst

/-- Number of bindings of key `k` (1 for every key of a real dict). -/
def countKey {K V : Type} [DecidableEq K] (d : List (K × V)) (k : K) : Nat :=
  (d.filter (fun p => p.1 = k)).length

/-- `str.title()` over ASCII: the first cased character of every cased run
is uppercased and the rest lowercased. -/
def pyTitleAux : Bool → List Char → List Char
  | _, [] => []
  | prevAlpha, c :: r =>
    (if c.isAlpha then (if prevAlpha then c.toLower else c.toUpper) else c) ::
      pyTitleAux c.isAlpha r

def pyTitle (s : List Char) : List Char := pyTitleAux false s

/-- `f"zigbee_{device_type}_{device_id}"`. -/
def zigbeeDmId (device_type : List Char) (device_id : Nat) : List Char :=
  "zigbee_".toList ++ device_type ++ '_' :: natToChars device_id

/-- `f"Zigbee {device_type.title()} {device_id}"`. -/
def zigbeeName (device_type : List Char) (device_id : Nat) : List Char :=
  "Zigbee ".toList ++ pyTitle device_type ++ ' ' :: natToChars device_id

/-- Coordinator-side mutable state: `self._devices` (mesh address → record)
and the external registry `self.device_manager.devices` (composite key →
record). -/
structure CoordState where
  devices : List (Nat × DeviceData)
  dmDevices : List (List Char × DeviceData)
deriving DecidableEq, Repr

/-- `DeviceManager.add_device` (`device_management.py` lines 62-103):
returns `False` when `device_data["device_id"]` raises, updates and merges
when the id already exists, otherwise inserts a freshly built record with
defaulted fields and a copied properties dict.  Persistence
(`_save_devices`) and dispatcher notifications are I/O-only and carry no
registry state. -/
def add_device (dm : List (List Char × DeviceData)) (device_data : DeviceData)
    (now : Nat) : Bool × List (List Char × DeviceData) :=
  match device_data.device_id with
  | none => (false, dm)
  | some device_id =>
    match dictGet dm device_id with
    | some existing =>
      (true, dictSet dm device_id
        { existing.updateWith device_data with last_seen := some now })
    | none =>
      let device : DeviceData :=
        { device_id := some device_id,
          device_type := some (device_data.device_type.getD "ble".toList),
          category := some (device_data.category.getD "sensor".toList),
          name := some (device_data.name.getD device_id),
          zigbee_id := device_data.zigbee_id,
          ble_discovery_mode := some (device_data.ble_discovery_mode.getD "v0_manual".toList),
          status := some (device_data.status.getD "disconnected".toList),
          last_seen := some now,
          created_manually := some (device_data.created_manually.getD false),
          properties := some (device_data.properties.getD {}) }
      (true, dictSet dm device_id device)

/-- `ZigbeeCoordinator._handle_add_device` (lines 391-444). -/
def handle_add_device (st : CoordState) (parsed : ParsedCmd) (now : Nat) :
    CoordState :=
  match parsed.device_id with
  | none => st
  | some device_id =>
    let device_type := parsed.device_type
    let device_manager_id := zigbeeDmId device_type device_id
    match dictGet st.devices device_id with
    | some device_data =>
      -- device already in _devices: update it in place (Python mutates the
      -- shared dict), and merge into the registry copy if present
      let device_data' :=
        { device_data with
          zigbee_id := some device_id,
          device_type := some DEVICE_TYPE_ZIGBEE,
          status := some DEVICE_STATUS_CONNECTED }
      let dm' :=
        match dictGet st.dmDevices device_manager_id with
        | some dmRec => dictSet st.dmDevices device_manager_id (dmRec.updateWith device_data')
        | none => st.dmDevices
      { devices := dictSet st.devices device_id device_data', dmDevices := dm' }
    | none =>
      match dictGet st.dmDevices device_manager_id with
      | some dmRec =>
        -- device known to the registry but not the local index: repopulate
        -- the index from the registry copy and update its status fields
        let device_data' :=
          { dmRec with
            zigbee_id := some device_id,
            device_type := some DEVICE_TYPE_ZIGBEE,
            status := some DEVICE_STATUS_CONNECTED }
        { devices := dictSet st.devices device_id device_data',
          dmDevices := dictSet st.dmDevices device_manager_id device_data' }
      | none =>
        let category :=
          if device_type = ZIGBEE_DEVICE_BULB then DEVICE_CATEGORY_LIGHT
          else DEVICE_CATEGORY_SWITCH
        let device_data : DeviceData :=
          { device_id := some device_manager_id,
            zigbee_id := some device_id,
            device_type := some DEVICE_TYPE_ZIGBEE,
            category := some category,
            name := some (zigbeeName device_type device_id),
            status := some DEVICE_STATUS_CONNECTED,
            properties := some { switch_state := some false, light_state := some false } }
        let dm' := (add_device st.dmDevices device_data now).2
        { devices := dictSet st.devices device_id device_data, dmDevices := dm' }

/-- `ZigbeeCoordinator._handle_delete_device` (lines 446-450): reads the
parsed fields and logs them; the device maps are not touched.  The returned
string is the rendered log message. -/
def handle_delete_device (st : CoordState) (parsed : ParsedCmd) :
    CoordState × List Char :=
  let device_type := parsed.device_type
  let msg :=
    "Delete device command received for type: ".toList ++ device_type ++
      " (code: ".toList ++
      (match parsed.type_code with
       | some n => natToChars n
       | none => "None".toList) ++ ")".toList
  (st, msg)

/-- Record resolution of `_handle_state_update` (lines 470-518): find the
record in the local index (registering the write-once `supports_brightness`
property), fall back to the registry copy, or auto-create a Connected record
and insert it into the registry.  Returns the working record and the
(possibly extended) registry map. -/
def resolveStateRecord (st : CoordState) (device_type : List Char)
    (device_id : Nat) (supports_brightness : Bool) (now : Nat) :
    DeviceData × List (List Char × DeviceData) :=
  let device_manager_id := zigbeeDmId device_type device_id
  match dictGet st.devices device_id with
  | some d =>
    let props := d.properties.getD {}
    let props' := { props with supports_brightness := some supports_brightness }
    let d' :=
      if props.supports_brightness = none then
        { d with properties := some props' }
      else d
    (d', st.dmDevices)
  | none =>
    match dictGet st.dmDevices device_manager_id with
    | some dmRec => (dmRec, st.dmDevices)
    | none =>
      let category :=
        if device_type = ZIGBEE_DEVICE_BULB then DEVICE_CATEGORY_LIGHT
        else DEVICE_CATEGORY_SWITCH
      let fresh : DeviceData :=
        { device_id := some device_manager_id,
          zigbee_id := some device_id,
          device_type := some DEVICE_TYPE_ZIGBEE,
          category := some category,
          name := some (zigbeeName device_type device_id),
          status := some DEVICE_STATUS_CONNECTED,
          properties := some { switch_state := some false, light_state := some false,
                               supports_brightness := some supports_brightness } }
      (fresh, (add_device st.dmDevices fresh now).2)

/-- Class-specific field derivation of `_handle_state_update`
(lines 520-546): light/switch state from the subtype code, clamped
brightness, and the retained raw `cmd_type` for switches. -/
def applyClassDerivation (device_type : List Char) (supports_brightness : Bool)
    (brightness : Option Nat) (cmd_type : Option Nat) (device_data : DeviceData) :
    DeviceData :=
  let props := device_data.properties.getD {}
  if device_type = ZIGBEE_DEVICE_BULB then
    if supports_brightness ∧ brightness.isSome then
      let b := clampNat (brightness.getD 0)
      let lightSt := match cmd_type with
        | some ct => if ct = 1 ∨ ct = 3 then true else false
        | none => true
      { device_data with
        properties := some { props with
          brightness := some b, light_state := some lightSt } }
    else
      let lightSt := match cmd_type with
        | some ct => if ct = 1 then true else false
        | none => true
      { device_data with
        properties := some { props with light_state := some lightSt } }
  else if device_type = ZIGBEE_DEVICE_SWITCH then
    let propsA :=
      match cmd_type with
      | some ct =>
        { props with
          switch_state := some (if ct = 1 ∨ ct = 3 then true else false),
          cmd_type := some ct }
      | none => { props with switch_state := some true }
    if supports_brightness ∧ brightness.isSome then
      { device_data with
        properties := some { propsA with
          brightness := some (clampNat (brightness.getD 0)) } }
    else
      { device_data with properties := some propsA }
  else device_data

/-- Write-back step of `_handle_state_update` (lines 548-554): store the
final record in the local index (Python mutated it in place through the
shared reference) and, when the registry holds the composite key, merge the
record into the registry copy and stamp `last_seen`. -/
def stateWriteBack (st : CoordState) (dm1 : List (List Char × DeviceData))
    (device_id : Nat) (device_data : DeviceData) (now : Nat) : CoordState :=
  let devices' := dictSet st.devices device_id device_data
  match device_data.device_id with
  | some dmId2 =>
    match dictGet dm1 dmId2 with
    | some dmRec =>
      { devices := devices',
        dmDevices := dictSet dm1 dmId2
          { dmRec.updateWith device_data with last_seen := some now } }
    | none => { devices := devices', dmDevices := dm1 }
  | none => { devices := devices', dmDevices := dm1 }

/-- `ZigbeeCoordinator._handle_state_update` (lines 452-554).  Python
mutates `device_data` (the dict shared with `self._devices[device_id]` and,
at the end, re-merged into the registry copy) in place; the model computes
the final record value and performs the same writes. -/
def handle_state_update (st : CoordState) (parsed : ParsedCmd) (now : Nat) :
    CoordState :=
  match parsed.device_id with
  | none => st
  | some device_id =>
    let device_type := parsed.device_type
    let supports_brightness := parsed.supports_brightness.getD false
    let resolved := resolveStateRecord st device_type device_id supports_brightness now
    let device_data := applyClassDerivation device_type supports_brightness
      parsed.brightness parsed.cmd_type resolved.1
    stateWriteBack st resolved.2 device_id device_data now

/-! ## Serial write path (`_write_serial`, `send_control_command`,
`send_pairing_command`, lines 556-597)

The caller-visible Python return value is modelled as `Option Bool`: these
functions contain no `return` statement, so every path returns `None`
(`none`).  The serial handle and the logs are explicit state. -/

structure SerialState where
  /-- `self.serial_connection is not None` -/
  connExists : Bool
  /-- `self.serial_connection.is_open` -/
  isOpen : Bool
  /-- data successfully passed to `serial_connection.write` -/
  written : List (List Char)
  /-- messages logged at error level -/
  errorLog : List (List Char)
deriving DecidableEq, Repr

/-- `ZigbeeCoordinator._write_serial` (lines 580-597). -/
def write_serial (s : SerialState) (data : List Char) :
    SerialState × Option Bool :=
  if s.connExists && s.isOpen then
    ({ s with written := s.written ++ [data] }, none)
  else
    ({ s with errorLog := s.errorLog ++ ["Serial connection not open - cannot write".toList] },
      none)

/-- `ZigbeeCoordinator.send_control_command` (lines 564-578). -/
def send_control_command (s : SerialState) (device_id : Int)
    (device_type : List Char) (state : Bool) (brightness : Option Int) :
    SerialState × Option Bool :=
  let command := build_command ZIGBEE_CMD_STATE device_type (some device_id)
    (some state) brightness
  write_serial s command

/-- `ZigbeeCoordinator.send_pairing_command` (lines 556-562). -/
def send_pairing_command (s : SerialState) : SerialState × Option Bool :=
  let command := build_command ZIGBEE_CMD_PAIR [] none none none
  write_serial s command

/-! ## Groundwork lemmas -/

theorem natToCharsF_fuel_irrel :
    ∀ (f f' n : Nat), n < f → n < f' → natToCharsF f n = natToCharsF f' n := by
  intro f
  induction f with
  | zero => intro f' n h; omega
  | succ f ih =>
    intro f' n h h'
    cases f' with
    | zero => omega
    | succ f' =>
      simp only [natToCharsF]
      by_cases h10 : n < 10
      · simp [h10]
      · simp only [h10, if_false]
        have hdiv : n / 10 < n := Nat.div_lt_self (by omega) (by omega)
        rw [ih f' (n / 10) (by omega) (by omega)]

/-- The recursion `natToChars` actually performs. -/
theorem natToChars_unfold (n : Nat) :
    natToChars n =
      if n < 10 then [Nat.digitChar n]
      else natToChars (n / 10) ++ [Nat.digitChar (n % 10)] := by
  show natToCharsF (n + 1) n = _
  rw [natToCharsF]
  by_cases h10 : n < 10
  · simp [h10]
  · simp only [h10, if_false]
    have hdiv : n / 10 < n := Nat.div_lt_self (by omega) (by omega)
    rw [natToCharsF_fuel_irrel n (n / 10 + 1) (n / 10) (by omega) (by omega)]
    rfl

theorem splitFirstTerm_rest_length {s a b : List Char}
    (h : splitFirstTerm s = some (a, b)) : b.length < s.length := by
  induction s generalizing a b with
  | nil => simp [splitFirstTerm] at h
  | cons c rest ih =>
    rw [splitFirstTerm] at h
    split at h
    · rename_i hc
      obtain ⟨rfl, rfl⟩ : ([] = a) ∧ (rest.tail = b) := by
        simpa using h
      rcases hc with ⟨_, hh⟩
      cases rest with
      | nil => simp at hh
      | cons x xs => simp; omega
    · cases hsp : splitFirstTerm rest with
      | none => rw [hsp] at h; simp at h
      | some p =>
        rw [hsp] at h
        obtain ⟨rfl, rfl⟩ : (c :: p.1 = a) ∧ (p.2 = b) := by simpa using h
        have := ih (a := p.1) (b := p.2) (by rw [hsp])
        simp; omega

theorem extractLinesF_fuel_irrel :
    ∀ (f f' : Nat) (s : List Char), s.length < f → s.length < f' →
      extractLinesF f s = extractLinesF f' s := by
  intro f
  induction f with
  | zero => intro f' s h; omega
  | succ f ih =>
    intro f' s h h'
    cases f' with
    | zero => omega
    | succ f' =>
      simp only [extractLinesF]
      cases hsp : splitFirstTerm s with
      | none => rfl
      | some p =>
        obtain ⟨line, rest⟩ := p
        have hlen := splitFirstTerm_rest_length hsp
        dsimp only
        rw [ih f' rest (by omega) (by omega)]

/-- The recursion `extractLines` actually performs. -/
theorem extractLines_unfold (s : List Char) :
    extractLines s =
      match splitFirstTerm s with
      | some (line, rest) => ((extractLines rest).1.cons line, (extractLines rest).2)
      | none => ([], s) := by
  cases hsp : splitFirstTerm s with
  | none => show extractLinesF (s.length + 1) s = _; rw [extractLinesF, hsp]
  | some p =>
    obtain ⟨line, rest⟩ := p
    have hlen := splitFirstTerm_rest_length hsp
    show extractLinesF (s.length + 1) s = _
    rw [extractLinesF, hsp]
    show (line :: (extractLinesF s.length rest).1, (extractLinesF s.length rest).2) = _
    rw [extractLinesF_fuel_irrel (s.length) (rest.length + 1) rest (by omega) (by omega)]
    rfl

theorem not_isSpace_of_isDigit {c : Char} (h : isDigit c = true) :
    isSpace c = false := by
  cases hs : isSpace c
  · rfl
  · exfalso
    simp only [isSpace, Bool.or_eq_true, decide_eq_true_eq] at hs
    rcases hs with ((((rfl | rfl) | rfl) | rfl) | rfl) | rfl <;> exact absurd h (by decide)

theorem not_isSpace_of_isWordChar {c : Char} (h : isWordChar c = true) :
    isSpace c = false := by
  cases hs : isSpace c
  · rfl
  · exfalso
    simp only [isSpace, Bool.or_eq_true, decide_eq_true_eq] at hs
    rcases hs with ((((rfl | rfl) | rfl) | rfl) | rfl) | rfl <;> exact absurd h (by decide)

theorem isWordChar_of_isDigit {c : Char} (h : isDigit c = true) :
    isWordChar c = true := by
  simp [isWordChar, h]

theorem takeWhile_append_all {p : Char → Bool} {t r : List Char}
    (ht : ∀ c ∈ t, p c = true) :
    (t ++ r).takeWhile p = t ++ r.takeWhile p := by
  induction t with
  | nil => rfl
  | cons c t ih =>
    have hc : p c = true := ht c (by simp)
    simp only [List.cons_append, List.takeWhile_cons_of_pos hc, List.cons.injEq, true_and]
    exact ih (fun c hc' => ht c (by simp [hc']))

theorem dropWhile_append_all {p : Char → Bool} {t r : List Char}
    (ht : ∀ c ∈ t, p c = true) :
    (t ++ r).dropWhile p = r.dropWhile p := by
  induction t with
  | nil => rfl
  | cons c t ih =>
    have hc : p c = true := ht c (by simp)
    simp only [List.cons_append, List.dropWhile_cons_of_pos hc]
    exact ih (fun c hc' => ht c (by simp [hc']))

theorem munch_token {p : Char → Bool} {t r : List Char} (hne : t ≠ [])
    (ht : ∀ c ∈ t, p c = true) (hr : r.takeWhile p = []) :
    munch p (t ++ r) = some (t, r) := by
  have h1 : (t ++ r).takeWhile p = t := by
    rw [takeWhile_append_all ht, hr, List.append_nil]
  have h2 : (t ++ r).dropWhile p = r := by
    rw [dropWhile_append_all ht]
    cases r with
    | nil => rfl
    | cons c r' =>
      cases hp : p c
      · exact List.dropWhile_cons_of_neg (by simp [hp])
      · exfalso
        rw [List.takeWhile_cons_of_pos hp] at hr
        simp at hr
  simp [munch, h1, h2, hne]

theorem munch_nil (p : Char → Bool) : munch p [] = none := rfl

theorem takeWhile_cons_head_neg {p : Char → Bool} {c : Char} {r : List Char}
    (h : p c = false) : (c :: r).takeWhile p = [] := by
  have hc : ¬ p c = true := by simp [h]
  exact List.takeWhile_cons_of_neg hc

theorem munch_cons_neg {p : Char → Bool} {c : Char} {r : List Char}
    (h : p c = false) : munch p (c :: r) = none := by
  simp [munch, takeWhile_cons_head_neg h]

theorem natToChars_ne_nil (n : Nat) : natToChars n ≠ [] := by
  rw [natToChars_unfold]
  by_cases h10 : n < 10 <;> simp [h10]

theorem isDigit_digitChar {d : Nat} (h : d < 10) :
    isDigit (Nat.digitChar d) = true := by
  interval_cases d <;> decide

theorem isDigit_of_mem_natToChars {n : Nat} :
    ∀ c ∈ natToChars n, isDigit c = true := by
  induction n using Nat.strong_induction_on with
  | _ n ih =>
    intro c hc
    rw [natToChars_unfold] at hc
    by_cases h10 : n < 10
    · simp only [h10, if_true, List.mem_singleton] at hc
      subst hc
      exact isDigit_digitChar h10
    · simp only [h10, if_false, List.mem_append, List.mem_singleton] at hc
      rcases hc with hc | rfl
      · exact ih (n / 10) (Nat.div_lt_self (by omega) (by omega)) c hc
      · exact isDigit_digitChar (Nat.mod_lt _ (by omega))

theorem digitsToNat_append_singleton (l : List Char) (c : Char) :
    digitsToNat (l ++ [c]) = digitsToNat l * 10 + (c.toNat - 48) := by
  simp [digitsToNat, List.foldl_append]

theorem toNat_digitChar_sub {d : Nat} (h : d < 10) :
    (Nat.digitChar d).toNat - 48 = d := by
  interval_cases d <;> decide

theorem digitsToNat_natToChars (n : Nat) : digitsToNat (natToChars n) = n := by
  induction n using Nat.strong_induction_on with
  | _ n ih =>
    rw [natToChars_unfold]
    by_cases h10 : n < 10
    · simp only [h10, if_true]
      show digitsToNat ([] ++ [Nat.digitChar n]) = n
      rw [digitsToNat_append_singleton, toNat_digitChar_sub h10]
      simp [digitsToNat]
    · simp only [h10, if_false]
      rw [digitsToNat_append_singleton,
        ih (n / 10) (Nat.div_lt_self (by omega) (by omega)),
        toNat_digitChar_sub (Nat.mod_lt _ (by omega))]
      omega

theorem intToChars_ofNat (n : Nat) : intToChars (n : Int) = natToChars n := by
  simp [intToChars]

/-- A rendered number followed by a non-digit boundary (or nothing) matches
one `\d+` atom exactly. -/
theorem munch_isDigit_natToChars (n : Nat) {r : List Char}
    (hr : r.takeWhile isDigit = []) :
    munch isDigit (natToChars n ++ r) = some (natToChars n, r) :=
  munch_token (natToChars_ne_nil n) (isDigit_of_mem_natToChars) hr

theorem munch_isWordChar_natToChars (n : Nat) {r : List Char}
    (hr : r.takeWhile isWordChar = []) :
    munch isWordChar (natToChars n ++ r) = some (natToChars n, r) :=
  munch_token (natToChars_ne_nil n)
    (fun c hc => isWordChar_of_isDigit (isDigit_of_mem_natToChars c hc)) hr

theorem dropWhile_of_takeWhile_nil {p : Char → Bool} {r : List Char}
    (hr : r.takeWhile p = []) : r.dropWhile p = r := by
  cases r with
  | nil => rfl
  | cons c t =>
    cases hp : p c
    · exact List.dropWhile_cons_of_neg (by simp [hp])
    · rw [List.takeWhile_cons_of_pos hp] at hr
      simp at hr

theorem takeWhile_all {p : Char → Bool} {t : List Char}
    (ht : ∀ c ∈ t, p c = true) : t.takeWhile p = t := by
  have h := takeWhile_append_all (r := []) ht
  simpa using h

theorem dropWhile_all {p : Char → Bool} {t : List Char}
    (ht : ∀ c ∈ t, p c = true) : t.dropWhile p = [] := by
  have h := dropWhile_append_all (r := []) ht
  simpa using h

theorem munch_isSpace_single {r : List Char} (hr : r.takeWhile isSpace = []) :
    munch isSpace (' ' :: r) = some ([' '], r) := by
  have hsp : isSpace ' ' = true := by decide
  simp [munch, List.takeWhile_cons_of_pos hsp, List.dropWhile_cons_of_pos hsp, hr,
    dropWhile_of_takeWhile_nil hr]

theorem munch_token_end {p : Char → Bool} {t : List Char} (hne : t ≠ [])
    (ht : ∀ c ∈ t, p c = true) : munch p t = some (t, []) := by
  simp [munch, takeWhile_all ht, dropWhile_all ht, hne]

/-- A non-empty all-word token cannot start with whitespace. -/
theorem takeWhile_isSpace_word_nil {t r : List Char} (hne : t ≠ [])
    (ht : ∀ c ∈ t, isWordChar c = true) : (t ++ r).takeWhile isSpace = [] := by
  cases t with
  | nil => exact absurd rfl hne
  | cons c t' => exact takeWhile_cons_head_neg (not_isSpace_of_isWordChar (ht c (by simp)))

/-- A non-empty all-digit token cannot start with whitespace. -/
theorem takeWhile_isSpace_digit_nil {t r : List Char} (hne : t ≠ [])
    (ht : ∀ c ∈ t, isDigit c = true) : (t ++ r).takeWhile isSpace = [] := by
  cases t with
  | nil => exact absurd rfl hne
  | cons c t' => exact takeWhile_cons_head_neg (not_isSpace_of_isDigit (ht c (by simp)))

/-! ### `strip` lemmas -/

theorem lstrip_of_head_not {s : List Char} (h : ∀ c ∈ s.head?, isSpace c = false) :
    lstripChars s = s := by
  cases s with
  | nil => rfl
  | cons c r =>
    have hc : isSpace c = false := h c (by simp)
    exact List.dropWhile_cons_of_neg (by simp [hc])

theorem rstrip_of_last_not {s : List Char} (h : ∀ c ∈ s.getLast?, isSpace c = false) :
    rstripChars s = s := by
  unfold rstripChars
  have hrev : s.reverse.dropWhile isSpace = s.reverse := by
    cases hr : s.reverse with
    | nil => rfl
    | cons c t =>
      have hmem : c ∈ s.getLast? := by
        rw [← List.head?_reverse, hr]
        simp
      have hc : isSpace c = false := h c hmem
      exact List.dropWhile_cons_of_neg (by simp [hc])
  rw [hrev, List.reverse_reverse]

theorem stripChars_of_ends {s : List Char}
    (h1 : ∀ c ∈ s.head?, isSpace c = false)
    (h2 : ∀ c ∈ s.getLast?, isSpace c = false) :
    stripChars s = s := by
  unfold stripChars
  rw [lstrip_of_head_not h1, rstrip_of_last_not h2]

/-- Stripping a line that starts with a non-space, ends with a non-space,
and carries the CRLF terminator removes exactly the terminator. -/
theorem stripChars_append_crlf {s : List Char}
    (h1 : ∀ c ∈ s.head?, isSpace c = false)
    (h2 : ∀ c ∈ s.getLast?, isSpace c = false) :
    stripChars (s ++ ['\r', '\n']) = s := by
  cases s with
  | nil => decide
  | cons c t =>
    have hc : isSpace c = false := h1 c (by simp)
    unfold stripChars
    have hl : lstripChars ((c :: t) ++ ['\r', '\n']) = (c :: t) ++ ['\r', '\n'] := by
      unfold lstripChars
      exact List.dropWhile_cons_of_neg (by simp [hc])
    rw [hl]
    unfold rstripChars
    rw [List.reverse_append]
    show ((('\n' :: '\r' :: []) ++ (c :: t).reverse).dropWhile isSpace).reverse = _
    have hrn : isSpace '\n' = true := by decide
    have hrr : isSpace '\r' = true := by decide
    rw [List.cons_append, List.cons_append, List.nil_append,
      List.dropWhile_cons_of_pos hrn, List.dropWhile_cons_of_pos hrr]
    have hrev : (c :: t).reverse.dropWhile isSpace = (c :: t).reverse := by
      cases hr : (c :: t).reverse with
      | nil => rfl
      | cons x y =>
        have hmem : x ∈ (c :: t).getLast? := by
          rw [← List.head?_reverse, hr]
          simp
        have hx : isSpace x = false := h2 x hmem
        exact List.dropWhile_cons_of_neg (by simp [hx])
    rw [hrev, List.reverse_reverse]

theorem last_not_space_append {l r : List Char} (hne : r ≠ [])
    (h : ∀ c ∈ r.getLast?, isSpace c = false) :
    ∀ c ∈ (l ++ r).getLast?, isSpace c = false := by
  intro c hc
  rw [List.getLast?_append_of_ne_nil l hne] at hc
  exact h c hc

theorem last_not_space_cons {a : Char} {r : List Char} (hne : r ≠ [])
    (h : ∀ c ∈ r.getLast?, isSpace c = false) :
    ∀ c ∈ (a :: r).getLast?, isSpace c = false := by
  intro c hc
  rw [show (a :: r) = [a] ++ r from rfl, List.getLast?_append_of_ne_nil _ hne] at hc
  exact h c hc

theorem last_not_space_natToChars (n : Nat) :
    ∀ c ∈ (natToChars n).getLast?, isSpace c = false := by
  intro c hc
  obtain ⟨h, rfl⟩ := List.mem_getLast?_eq_getLast hc
  exact not_isSpace_of_isDigit (isDigit_of_mem_natToChars _ (List.getLast_mem h))

theorem takeWhile_isSpace_nil_of_digits {t : List Char} (hne : t ≠ [])
    (ht : ∀ c ∈ t, isDigit c = true) : t.takeWhile isSpace = [] := by
  have h := takeWhile_isSpace_digit_nil (r := ([] : List Char)) hne ht
  simpa using h

/-! ### Token-level characterizations of the two regex matchers -/

/-- `pattern_new` on a five-token line: groups 1-5 are the tokens, the
optional sixth group is skipped. -/
theorem matchNew_tokens5 {w1 w2 d3 d4 d5 : List Char}
    (h1 : w1 ≠ []) (hw1 : ∀ c ∈ w1, isWordChar c = true)
    (h2 : w2 ≠ []) (hw2 : ∀ c ∈ w2, isWordChar c = true)
    (h3 : d3 ≠ []) (hd3 : ∀ c ∈ d3, isDigit c = true)
    (h4 : d4 ≠ []) (hd4 : ∀ c ∈ d4, isDigit c = true)
    (h5 : d5 ≠ []) (hd5 : ∀ c ∈ d5, isDigit c = true) :
    matchNew ('+' :: (w1 ++ ' ' :: (w2 ++ ' ' :: (d3 ++ ' ' :: (d4 ++ ' ' :: d5))))) =
      some ⟨w1, w2, d3, d4, d5, none⟩ := by
  have hwsp : isWordChar ' ' = false := by decide
  have hdsp : isDigit ' ' = false := by decide
  simp only [matchNew, reduceIte, Option.bind_eq_bind, Option.some_bind,
    munch_token h1 hw1 (takeWhile_cons_head_neg hwsp),
    munch_isSpace_single (takeWhile_isSpace_word_nil h2 hw2),
    munch_token h2 hw2 (takeWhile_cons_head_neg hwsp),
    munch_isSpace_single (takeWhile_isSpace_digit_nil h3 hd3),
    munch_token h3 hd3 (takeWhile_cons_head_neg hdsp),
    munch_isSpace_single (takeWhile_isSpace_digit_nil h4 hd4),
    munch_token h4 hd4 (takeWhile_cons_head_neg hdsp),
    munch_isSpace_single (takeWhile_isSpace_nil_of_digits h5 hd5),
    munch_token_end h5 hd5, munch_nil]

/-- `pattern_new` on a six-token line: the optional brightness group is
captured. -/
theorem matchNew_tokens6 {w1 w2 d3 d4 d5 d6 : List Char}
    (h1 : w1 ≠ []) (hw1 : ∀ c ∈ w1, isWordChar c = true)
    (h2 : w2 ≠ []) (hw2 : ∀ c ∈ w2, isWordChar c = true)
    (h3 : d3 ≠ []) (hd3 : ∀ c ∈ d3, isDigit c = true)
    (h4 : d4 ≠ []) (hd4 : ∀ c ∈ d4, isDigit c = true)
    (h5 : d5 ≠ []) (hd5 : ∀ c ∈ d5, isDigit c = true)
    (h6 : d6 ≠ []) (hd6 : ∀ c ∈ d6, isDigit c = true) :
    matchNew ('+' :: (w1 ++ ' ' :: (w2 ++ ' ' :: (d3 ++ ' ' :: (d4 ++ ' ' :: (d5 ++ ' ' :: d6)))))) =
      some ⟨w1, w2, d3, d4, d5, some d6⟩ := by
  have hwsp : isWordChar ' ' = false := by decide
  have hdsp : isDigit ' ' = false := by decide
  simp only [matchNew, reduceIte, Option.bind_eq_bind, Option.some_bind,
    munch_token h1 hw1 (takeWhile_cons_head_neg hwsp),
    munch_isSpace_single (takeWhile_isSpace_word_nil h2 hw2),
    munch_token h2 hw2 (takeWhile_cons_head_neg hwsp),
    munch_isSpace_single (takeWhile_isSpace_digit_nil h3 hd3),
    munch_token h3 hd3 (takeWhile_cons_head_neg hdsp),
    munch_isSpace_single (takeWhile_isSpace_digit_nil h4 hd4),
    munch_token h4 hd4 (takeWhile_cons_head_neg hdsp),
    munch_isSpace_single (takeWhile_isSpace_digit_nil h5 hd5),
    munch_token h5 hd5 (takeWhile_cons_head_neg hdsp),
    munch_isSpace_single (takeWhile_isSpace_nil_of_digits h6 hd6),
    munch_token_end h6 hd6]

/-- `pattern_old` on a five-token line: groups 1-5 are the tokens, group 6
is empty. -/
theorem matchOld_tokens5 {w1 w2 d3 d4 d5 : List Char}
    (h1 : w1 ≠ []) (hw1 : ∀ c ∈ w1, isWordChar c = true)
    (h2 : w2 ≠ []) (hw2 : ∀ c ∈ w2, isWordChar c = true)
    (h3 : d3 ≠ []) (hd3 : ∀ c ∈ d3, isDigit c = true)
    (h4 : d4 ≠ []) (hd4 : ∀ c ∈ d4, isDigit c = true)
    (h5 : d5 ≠ []) (hd5 : ∀ c ∈ d5, isDigit c = true) :
    matchOld ('+' :: (w1 ++ ' ' :: (w2 ++ ' ' :: (d3 ++ ' ' :: (d4 ++ ' ' :: d5))))) =
      some ⟨w1, w2, d3, d4, d5, []⟩ := by
  have hwsp : isWordChar ' ' = false := by decide
  have hdsp : isDigit ' ' = false := by decide
  have hssp : isSpace ' ' = true := by decide
  simp only [matchOld, reduceIte, Option.bind_eq_bind, Option.some_bind,
    munch_token h1 hw1 (takeWhile_cons_head_neg hwsp),
    munch_isSpace_single (takeWhile_isSpace_word_nil h2 hw2),
    munch_token h2 hw2 (takeWhile_cons_head_neg hwsp),
    munch_isSpace_single (takeWhile_isSpace_digit_nil h3 hd3),
    munch_token h3 hd3 (takeWhile_cons_head_neg hdsp),
    munch_isSpace_single (takeWhile_isSpace_digit_nil h4 hd4),
    munch_token h4 hd4 (takeWhile_cons_head_neg hdsp),
    List.dropWhile_cons_of_pos hssp,
    dropWhile_of_takeWhile_nil (takeWhile_isSpace_nil_of_digits h5 hd5),
    takeWhile_all hd5, dropWhile_all hd5, List.takeWhile_nil, List.dropWhile_nil]

/-! ### Evaluating `parse_command` on built lines -/

theorem parseStripped_built {rest : List Char}
    (h2 : ∀ c ∈ ('+' :: rest).getLast?, isSpace c = false) :
    parseStripped (zigbeeCmdStart ++ ('+' :: rest)) =
      (match matchNew ('+' :: rest) with
       | some m =>
         if m.g1 = ZIGBEE_CMD_STATE then some (parseVersionedOf m)
         else parseLegacy ('+' :: rest)
       | none => parseLegacy ('+' :: rest)) := by
  have hpre : zigbeeCmdStart.isPrefixOf (zigbeeCmdStart ++ ('+' :: rest)) = true :=
    List.isPrefixOf_iff_prefix.mpr (List.prefix_append _ _)
  have hhead : ∀ c ∈ ('+' :: rest).head?, isSpace c = false := by
    intro c hc
    simp only [List.head?_cons, Option.mem_def, Option.some.injEq] at hc
    subst hc
    decide
  simp only [parseStripped, hpre, if_true, List.drop_left, stripChars_of_ends hhead h2]

theorem parse_command_built {rest : List Char}
    (h2 : ∀ c ∈ ('+' :: rest).getLast?, isSpace c = false) :
    parse_command ((zigbeeCmdStart ++ ('+' :: rest)) ++ serialLineEnding) =
      parseStripped (zigbeeCmdStart ++ ('+' :: rest)) := by
  have hhead : ∀ c ∈ (zigbeeCmdStart ++ ('+' :: rest)).head?, isSpace c = false := by
    intro c hc
    simp only [zigbeeCmdStart, List.cons_append, List.head?_cons, Option.mem_def,
      Option.some.injEq] at hc
    subst hc
    decide
  have hlast : ∀ c ∈ (zigbeeCmdStart ++ ('+' :: rest)).getLast?, isSpace c = false :=
    last_not_space_append (by simp) h2
  unfold parse_command
  rw [show serialLineEnding = ['\r', '\n'] from rfl,
    stripChars_append_crlf hhead hlast]

theorem last_not_space_tail {w : List Char} {r : List Char} (hne : r ≠ [])
    (h : ∀ c ∈ r.getLast?, isSpace c = false) :
    ∀ c ∈ (w ++ r).getLast?, isSpace c = false :=
  last_not_space_append hne h

/-- Round trip for Add commands: `build` then `parse` recovers the kind, the
class, the legacy type code, and the unmasked address. -/
theorem roundtrip_add (cls : List Char)
    (hcls : cls = ZIGBEE_DEVICE_BULB ∨ cls = ZIGBEE_DEVICE_SWITCH) (n : Nat) :
    parse_command (build_command ZIGBEE_CMD_ADD cls (some (n : Int)) none none) =
      some { command := ZIGBEE_CMD_ADD, device_type := cls, length := 2,
             type_code := some (if cls = ZIGBEE_DEVICE_BULB then 2 else 3),
             device_id := some n } := by
  have hd5ne := natToChars_ne_nil n
  have hd5 : ∀ c ∈ natToChars n, isDigit c = true := isDigit_of_mem_natToChars
  have hlastn := last_not_space_natToChars n
  rcases hcls with rfl | rfl
  · have hshape : build_command ZIGBEE_CMD_ADD ZIGBEE_DEVICE_BULB (some (n : Int)) none none =
        (zigbeeCmdStart ++ ('+' :: (ZIGBEE_CMD_ADD ++ ' ' ::
          (ZIGBEE_DEVICE_BULB ++ ' ' :: (['2'] ++ ' ' :: (['2'] ++ ' ' :: natToChars n)))))) ++
          serialLineEnding := by
      simp [build_command, ZIGBEE_CMD_ADD, ZIGBEE_CMD_PAIR, ZIGBEE_DEVICE_BULB,
        pyStrOptInt, intToChars_ofNat, show natToChars 2 = ['2'] from rfl,
        List.append_assoc]
    have hlast : ∀ c ∈ ('+' :: (ZIGBEE_CMD_ADD ++ ' ' ::
        (ZIGBEE_DEVICE_BULB ++ ' ' :: (['2'] ++ ' ' :: (['2'] ++ ' ' :: natToChars n))))).getLast?,
        isSpace c = false := by
      apply last_not_space_cons (by simp [ZIGBEE_CMD_ADD])
      apply last_not_space_tail (by simp)
      apply last_not_space_cons (by simp [ZIGBEE_DEVICE_BULB])
      apply last_not_space_tail (by simp)
      apply last_not_space_cons (by simp)
      apply last_not_space_tail (by simp)
      apply last_not_space_cons (by simp)
      apply last_not_space_tail (by simp [hd5ne])
      exact last_not_space_cons hd5ne hlastn
    rw [hshape, parse_command_built hlast, parseStripped_built hlast,
      matchNew_tokens5 (by decide) (by decide) (by decide) (by decide) (by decide)
        (by decide) (by decide) (by decide) hd5ne hd5]
    simp only [ZIGBEE_CMD_STATE, ZIGBEE_CMD_ADD, ZIGBEE_DEVICE_BULB,
      ZIGBEE_DEVICE_SWITCH, reduceIte]
    unfold parseLegacy
    rw [matchOld_tokens5 (by decide) (by decide) (by decide) (by decide) (by decide)
      (by decide) (by decide) (by decide) hd5ne hd5]
    simp [parseLegacyOf, digitsToNat_natToChars, hd5ne,
      show digitsToNat ['2'] = 2 from rfl]
  · have hshape : build_command ZIGBEE_CMD_ADD ZIGBEE_DEVICE_SWITCH (some (n : Int)) none none =
        (zigbeeCmdStart ++ ('+' :: (ZIGBEE_CMD_ADD ++ ' ' ::
          (ZIGBEE_DEVICE_SWITCH ++ ' ' :: (['2'] ++ ' ' :: (['3'] ++ ' ' :: natToChars n)))))) ++
          serialLineEnding := by
      simp [build_command, ZIGBEE_CMD_ADD, ZIGBEE_CMD_PAIR, ZIGBEE_DEVICE_BULB,
        ZIGBEE_DEVICE_SWITCH, pyStrOptInt, intToChars_ofNat,
        show natToChars 2 = ['2'] from rfl, show natToChars 3 = ['3'] from rfl,
        List.append_assoc]
    have hlast : ∀ c ∈ ('+' :: (ZIGBEE_CMD_ADD ++ ' ' ::
        (ZIGBEE_DEVICE_SWITCH ++ ' ' :: (['2'] ++ ' ' :: (['3'] ++ ' ' :: natToChars n))))).getLast?,
        isSpace c = false := by
      apply last_not_space_cons (by simp [ZIGBEE_CMD_ADD])
      apply last_not_space_tail (by simp)
      apply last_not_space_cons (by simp [ZIGBEE_DEVICE_SWITCH])
      apply last_not_space_tail (by simp)
      apply last_not_space_cons (by simp)
      apply last_not_space_tail (by simp)
      apply last_not_space_cons (by simp)
      apply last_not_space_tail (by simp [hd5ne])
      exact last_not_space_cons hd5ne hlastn
    rw [hshape, parse_command_built hlast, parseStripped_built hlast,
      matchNew_tokens5 (by decide) (by decide) (by decide) (by decide) (by decide)
        (by decide) (by decide) (by decide) hd5ne hd5]
    simp only [ZIGBEE_CMD_STATE, ZIGBEE_CMD_ADD, ZIGBEE_DEVICE_BULB,
      ZIGBEE_DEVICE_SWITCH, reduceIte]
    unfold parseLegacy
    rw [matchOld_tokens5 (by decide) (by decide) (by decide) (by decide) (by decide)
      (by decide) (by decide) (by decide) hd5ne hd5]
    simp [parseLegacyOf, digitsToNat_natToChars, hd5ne,
      show digitsToNat ['2'] = 2 from rfl, show digitsToNat ['3'] = 3 from rfl]

/-- Parsing a built three-field STATE line, token-wise. -/
theorem parse_state3_aux (cls : List Char) (hne : cls ≠ [])
    (hw : ∀ c ∈ cls, isWordChar c = true) (hnsw : ¬ cls = ['s', 'w'])
    (n : Nat) (hn : n < 4294967296) (sv : Nat) :
    parse_command ((zigbeeCmdStart ++ ('+' :: (ZIGBEE_CMD_STATE ++ ' ' ::
        (cls ++ ' ' :: (['3'] ++ ' ' :: (natToChars n ++ ' ' :: natToChars sv)))))) ++
        serialLineEnding) =
      some { command := ZIGBEE_CMD_STATE, device_type := cls, length := 3,
             device_id := some n, cmd_type := some sv,
             supports_brightness := some false } := by
  have hd4ne := natToChars_ne_nil n
  have hd4 : ∀ c ∈ natToChars n, isDigit c = true := isDigit_of_mem_natToChars
  have hd5ne := natToChars_ne_nil sv
  have hd5 : ∀ c ∈ natToChars sv, isDigit c = true := isDigit_of_mem_natToChars
  have hlast : ∀ c ∈ ('+' :: (ZIGBEE_CMD_STATE ++ ' ' ::
      (cls ++ ' ' :: (['3'] ++ ' ' :: (natToChars n ++ ' ' :: natToChars sv))))).getLast?,
      isSpace c = false := by
    apply last_not_space_cons (by simp [ZIGBEE_CMD_STATE])
    apply last_not_space_tail (by simp)
    apply last_not_space_cons (by simp)
    apply last_not_space_tail (by simp)
    apply last_not_space_cons (by simp)
    apply last_not_space_tail (by simp)
    apply last_not_space_cons (by simp [hd4ne])
    apply last_not_space_tail (by simp [hd5ne])
    exact last_not_space_cons hd5ne (last_not_space_natToChars sv)
  rw [parse_command_built hlast, parseStripped_built hlast,
    matchNew_tokens5 (by decide) (by decide) hne hw (by decide) (by decide)
      hd4ne hd4 hd5ne hd5]
  dsimp only
  rw [if_pos rfl]
  simp [parseVersionedOf, digitsToNat_natToChars, hnsw,
    show digitsToNat ['3'] = 3 from rfl, Nat.mod_eq_of_lt hn]

/-- Parsing a built four-field STATE line, token-wise. -/
theorem parse_state4_aux (cls : List Char) (hne : cls ≠ [])
    (hw : ∀ c ∈ cls, isWordChar c = true) (hnsw : ¬ cls = ['s', 'w'])
    (n : Nat) (hn : n < 4294967296) (sv b : Nat) (hb : b ≤ 255) :
    parse_command ((zigbeeCmdStart ++ ('+' :: (ZIGBEE_CMD_STATE ++ ' ' ::
        (cls ++ ' ' :: (['4'] ++ ' ' :: (natToChars n ++ ' ' ::
          (natToChars sv ++ ' ' :: natToChars b))))))) ++
        serialLineEnding) =
      some { command := ZIGBEE_CMD_STATE, device_type := cls, length := 4,
             device_id := some n, cmd_type := some sv,
             supports_brightness := some true, brightness := some b } := by
  have hd4ne := natToChars_ne_nil n
  have hd4 : ∀ c ∈ natToChars n, isDigit c = true := isDigit_of_mem_natToChars
  have hd5ne := natToChars_ne_nil sv
  have hd5 : ∀ c ∈ natToChars sv, isDigit c = true := isDigit_of_mem_natToChars
  have hd6ne := natToChars_ne_nil b
  have hd6 : ∀ c ∈ natToChars b, isDigit c = true := isDigit_of_mem_natToChars
  have hlast : ∀ c ∈ ('+' :: (ZIGBEE_CMD_STATE ++ ' ' ::
      (cls ++ ' ' :: (['4'] ++ ' ' :: (natToChars n ++ ' ' ::
        (natToChars sv ++ ' ' :: natToChars b)))))).getLast?,
      isSpace c = false := by
    apply last_not_space_cons (by simp [ZIGBEE_CMD_STATE])
    apply last_not_space_tail (by simp)
    apply last_not_space_cons (by simp)
    apply last_not_space_tail (by simp)
    apply last_not_space_cons (by simp)
    apply last_not_space_tail (by simp)
    apply last_not_space_cons (by simp [hd4ne])
    apply last_not_space_tail (by simp [hd5ne])
    apply last_not_space_cons (by simp [hd5ne])
    apply last_not_space_tail (by simp [hd6ne])
    exact last_not_space_cons hd6ne (last_not_space_natToChars b)
  rw [parse_command_built hlast, parseStripped_built hlast,
    matchNew_tokens6 (by decide) (by decide) hne hw (by decide) (by decide)
      hd4ne hd4 hd5ne hd5 hd6ne hd6]
  dsimp only
  rw [if_pos rfl]
  simp [parseVersionedOf, digitsToNat_natToChars, hnsw, clampNat,
    show digitsToNat ['4'] = 4 from rfl, Nat.mod_eq_of_lt hn, Nat.min_eq_right hb]

/-- Shape of a built three-field STATE line. -/
theorem build_state3_shape (cls : List Char) (n : Nat) (st : Option Bool) :
    build_command ZIGBEE_CMD_STATE cls (some (n : Int)) st none =
      (zigbeeCmdStart ++ ('+' :: (ZIGBEE_CMD_STATE ++ ' ' ::
        (cls ++ ' ' :: (['3'] ++ ' ' :: (natToChars n ++ ' ' ::
          natToChars (if st = some true then 1 else 0))))))) ++ serialLineEnding := by
  simp [build_command, ZIGBEE_CMD_STATE, ZIGBEE_CMD_PAIR, ZIGBEE_CMD_ADD,
    ZIGBEE_CMD_DEL, pyStrOptInt, intToChars_ofNat,
    show natToChars 3 = ['3'] from rfl, List.append_assoc]

/-- Shape of a built four-field STATE line. -/
theorem build_state4_shape (cls : List Char) (n : Nat) (st : Option Bool) (b : Int) :
    build_command ZIGBEE_CMD_STATE cls (some (n : Int)) st (some b) =
      (zigbeeCmdStart ++ ('+' :: (ZIGBEE_CMD_STATE ++ ' ' ::
        (cls ++ ' ' :: (['4'] ++ ' ' :: (natToChars n ++ ' ' ::
          (natToChars (if st = some true then 1 else 0) ++ ' ' ::
            natToChars (pyClampInt b)))))))) ++ serialLineEnding := by
  simp [build_command, ZIGBEE_CMD_STATE, ZIGBEE_CMD_PAIR, ZIGBEE_CMD_ADD,
    ZIGBEE_CMD_DEL, pyStrOptInt, intToChars_ofNat,
    show natToChars 4 = ['4'] from rfl, List.append_assoc]

/-- Round trip for three-field StateUpdate commands with an in-range
address. -/
theorem roundtrip_state3 (cls : List Char)
    (hcls : cls = ZIGBEE_DEVICE_BULB ∨ cls = ZIGBEE_DEVICE_SWITCH)
    (n : Nat) (hn : n < 4294967296) (st : Option Bool) :
    parse_command (build_command ZIGBEE_CMD_STATE cls (some (n : Int)) st none) =
      some { command := ZIGBEE_CMD_STATE, device_type := cls, length := 3,
             device_id := some n, cmd_type := some (if st = some true then 1 else 0),
             supports_brightness := some false } := by
  rw [build_state3_shape]
  rcases hcls with rfl | rfl
  · exact parse_state3_aux _ (by decide) (by decide) (by decide) n hn _
  · exact parse_state3_aux _ (by decide) (by decide) (by decide) n hn _

/-- Round trip for four-field StateUpdate commands with an in-range address
and an in-range brightness. -/
theorem roundtrip_state4 (cls : List Char)
    (hcls : cls = ZIGBEE_DEVICE_BULB ∨ cls = ZIGBEE_DEVICE_SWITCH)
    (n : Nat) (hn : n < 4294967296) (st : Option Bool) (b : Nat) (hb : b ≤ 255) :
    parse_command (build_command ZIGBEE_CMD_STATE cls (some (n : Int)) st (some (b : Int))) =
      some { command := ZIGBEE_CMD_STATE, device_type := cls, length := 4,
             device_id := some n, cmd_type := some (if st = some true then 1 else 0),
             supports_brightness := some true, brightness := some b } := by
  rw [build_state4_shape]
  have hclamp : pyClampInt (b : Int) = b := by
    simp [pyClampInt]
    omega
  rw [hclamp]
  rcases hcls with rfl | rfl
  · exact parse_state4_aux _ (by decide) (by decide) (by decide) n hn _ b hb
  · exact parse_state4_aux _ (by decide) (by decide) (by decide) n hn _ b hb

/-- Round trip for Delete commands (no address on the wire). -/
theorem roundtrip_del (cls : List Char)
    (hcls : cls = ZIGBEE_DEVICE_BULB ∨ cls = ZIGBEE_DEVICE_SWITCH) :
    parse_command (build_command ZIGBEE_CMD_DEL cls none none none) =
      some { command := ZIGBEE_CMD_DEL, device_type := cls, length := 1,
             type_code := some (if cls = ZIGBEE_DEVICE_BULB then 2 else 3) } := by
  rcases hcls with rfl | rfl <;> decide

/-! ### Frame reader lemmas -/

theorem splitFirstTerm_append {s t a b : List Char}
    (h : splitFirstTerm s = some (a, b)) :
    splitFirstTerm (s ++ t) = some (a, b ++ t) := by
  induction s generalizing a b with
  | nil => simp [splitFirstTerm] at h
  | cons c rest ih =>
    rw [splitFirstTerm] at h
    rw [List.cons_append, splitFirstTerm]
    split at h
    · rename_i hc
      obtain ⟨rfl, rfl⟩ : ([] = a) ∧ (rest.tail = b) := by simpa using h
      obtain ⟨rfl, hh⟩ := hc
      cases rest with
      | nil => simp at hh
      | cons x xs =>
        simp only [List.head?_cons, Option.some.injEq] at hh
        subst hh
        rw [if_pos (by simp)]
        simp
    · rename_i hc
      cases hsp : splitFirstTerm rest with
      | none => rw [hsp] at h; simp at h
      | some p =>
        rw [hsp] at h
        obtain ⟨rfl, rfl⟩ : (c :: p.1 = a) ∧ (p.2 = b) := by simpa using h
        have hne : rest ≠ [] := by
          intro hr
          rw [hr] at hsp
          simp [splitFirstTerm] at hsp
        have hcond : ¬(c = '\r' ∧ (rest ++ t).head? = some '\n') := by
          intro ⟨hr, hh⟩
          exact hc ⟨hr, by
            cases rest with
            | nil => exact absurd rfl hne
            | cons x xs => simpa using hh⟩
        rw [if_neg hcond, ih (by rw [hsp])]
        simp

theorem splitFirstTerm_reconstruct {s a b : List Char}
    (h : splitFirstTerm s = some (a, b)) :
    s = a ++ '\r' :: '\n' :: b ∧ splitFirstTerm a = none := by
  induction s generalizing a b with
  | nil => simp [splitFirstTerm] at h
  | cons c rest ih =>
    rw [splitFirstTerm] at h
    split at h
    · rename_i hc
      obtain ⟨rfl, rfl⟩ : ([] = a) ∧ (rest.tail = b) := by simpa using h
      obtain ⟨rfl, hh⟩ := hc
      cases rest with
      | nil => simp at hh
      | cons x xs =>
        simp only [List.head?_cons, Option.some.injEq] at hh
        subst hh
        exact ⟨rfl, rfl⟩
    · rename_i hc
      cases hsp : splitFirstTerm rest with
      | none => rw [hsp] at h; simp at h
      | some p =>
        rw [hsp] at h
        obtain ⟨rfl, rfl⟩ : (c :: p.1 = a) ∧ (p.2 = b) := by simpa using h
        obtain ⟨hrec, hnone⟩ := ih (by rw [hsp])
        constructor
        · rw [List.cons_append, ← hrec]
        · rw [splitFirstTerm]
          rw [if_neg ?hcond]
          · rw [hnone]
            rfl
          case hcond =>
            intro ⟨hr, hh⟩
            apply hc
            refine ⟨hr, ?_⟩
            cases hp1 : p.1 with
            | nil =>
              rw [hp1] at hh
              simp at hh
            | cons x xs =>
              rw [hp1] at hh
              simp only [List.head?_cons, Option.some.injEq] at hh
              subst hh
              rw [hrec, hp1]
              simp

theorem extractLines_of_none {s : List Char} (h : splitFirstTerm s = none) :
    extractLines s = ([], s) := by
  rw [extractLines_unfold, h]

theorem extractLines_of_some {s a b : List Char} (h : splitFirstTerm s = some (a, b)) :
    extractLines s = (a :: (extractLines b).1, (extractLines b).2) := by
  rw [extractLines_unfold, h]

/-- Splitting distributes over appending fresh data: the lines of `s ++ t`
are the lines of `s` followed by the lines of `remainder(s) ++ t`. -/
theorem extractLines_append (s t : List Char) :
    extractLines (s ++ t) =
      ((extractLines s).1 ++ (extractLines ((extractLines s).2 ++ t)).1,
        (extractLines ((extractLines s).2 ++ t)).2) := by
  have H : ∀ (len : Nat) (s : List Char), s.length < len → ∀ t : List Char,
      extractLines (s ++ t) =
        ((extractLines s).1 ++ (extractLines ((extractLines s).2 ++ t)).1,
          (extractLines ((extractLines s).2 ++ t)).2) := by
    intro len
    induction len using Nat.strong_induction_on with
    | _ len ih =>
    intro s hs t
    cases hsp : splitFirstTerm s with
    | none =>
      rw [extractLines_of_none hsp]
      simp
    | some p =>
      obtain ⟨a, b⟩ := p
      rw [extractLines_of_some hsp, extractLines_of_some (splitFirstTerm_append hsp)]
      have hblen : b.length < s.length := splitFirstTerm_rest_length hsp
      rw [ih s.length hs b hblen t]
      simp
  exact H (s.length + 1) s (by omega) t

/-- Every extracted line is free of the CRLF terminator. -/
theorem extractLines_lines_no_term {s : List Char} :
    ∀ l ∈ (extractLines s).1, splitFirstTerm l = none := by
  have H : ∀ (len : Nat) (s : List Char), s.length < len →
      ∀ l ∈ (extractLines s).1, splitFirstTerm l = none := by
    intro len
    induction len using Nat.strong_induction_on with
    | _ len ih =>
    intro s hs l hl
    cases hsp : splitFirstTerm s with
    | none =>
      rw [extractLines_of_none hsp] at hl
      simp at hl
    | some p =>
      obtain ⟨a, b⟩ := p
      rw [extractLines_of_some hsp] at hl
      simp only [List.mem_cons] at hl
      rcases hl with rfl | hl
      · exact (splitFirstTerm_reconstruct hsp).2
      · exact ih s.length hs b (splitFirstTerm_rest_length hsp) l hl
  exact H (s.length + 1) s (by omega)

/-- The retained remainder is free of the CRLF terminator. -/
theorem extractLines_rest_no_term {s : List Char} :
    splitFirstTerm (extractLines s).2 = none := by
  have H : ∀ (len : Nat) (s : List Char), s.length < len →
      splitFirstTerm (extractLines s).2 = none := by
    intro len
    induction len using Nat.strong_induction_on with
    | _ len ih =>
    intro s hs
    cases hsp : splitFirstTerm s with
    | none => rw [extractLines_of_none hsp]; exact hsp
    | some p =>
      obtain ⟨a, b⟩ := p
      rw [extractLines_of_some hsp]
      exact ih s.length hs b (splitFirstTerm_rest_length hsp)
  exact H (s.length + 1) s (by omega)

/-- The original byte stream is recovered by re-attaching the terminator to
every extracted line and appending the remainder: nothing is lost. -/
theorem extractLines_reconstruct (s : List Char) :
    ((extractLines s).1.map (fun l => l ++ serialLineEnding)).flatten ++
      (extractLines s).2 = s := by
  have H : ∀ (len : Nat) (s : List Char), s.length < len →
      ((extractLines s).1.map (fun l => l ++ serialLineEnding)).flatten ++
        (extractLines s).2 = s := by
    intro len
    induction len using Nat.strong_induction_on with
    | _ len ih =>
    intro s hs
    cases hsp : splitFirstTerm s with
    | none => rw [extractLines_of_none hsp]; simp
    | some p =>
      obtain ⟨a, b⟩ := p
      rw [extractLines_of_some hsp]
      obtain ⟨hrec, -⟩ := splitFirstTerm_reconstruct hsp
      have hb := ih s.length hs b (splitFirstTerm_rest_length hsp)
      simp only [List.map_cons, List.flatten_cons, List.append_assoc]
      rw [hb, hrec]
      simp [serialLineEnding]
  exact H (s.length + 1) s (by omega)

/-- Feeding the chunks one call at a time (from a terminator-free buffer, as
maintained by the read loop) emits the same lines and leaves the same buffer
as feeding their concatenation in one call. -/
theorem feedAll_eq_feedChunk_join {buf : List Char}
    (hbuf : splitFirstTerm buf = none) (chunks : List (List Char)) :
    feedAll buf chunks = feedChunk buf chunks.flatten := by
  induction chunks generalizing buf with
  | nil =>
    simp only [feedAll, feedChunk, List.flatten_nil, List.append_nil,
      extractLines_of_none hbuf]
    rfl
  | cons d ds ih =>
    simp only [feedAll, feedChunk, List.flatten_cons]
    rw [ih (extractLines_rest_no_term)]
    have happ := extractLines_append (buf ++ d) ds.flatten
    rw [← List.append_assoc, happ]
    simp [feedChunk, List.filter_append]

/-! ### Dictionary lemmas -/

section DictLemmas

variable {K V : Type} [DecidableEq K]

theorem dictGet_set_self (d : List (K × V)) (k : K) (v : V) :
    dictGet (dictSet d k v) k = some v := by
  induction d with
  | nil => simp [dictSet, dictGet]
  | cons p rest ih =>
    obtain ⟨k', v'⟩ := p
    by_cases h : k' = k
    · subst h
      simp [dictSet, dictGet]
    · simp [dictSet, dictGet, h, ih]

theorem countKey_eq_zero_iff (d : List (K × V)) (k : K) :
    countKey d k = 0 ↔ dictGet d k = none := by
  induction d with
  | nil => simp [countKey, dictGet]
  | cons p rest ih =>
    obtain ⟨k', v'⟩ := p
    by_cases h : k' = k
    · subst h
      simp [countKey, dictGet, List.filter]
    · simp [countKey, dictGet, h, List.filter] at ih ⊢
      exact ih

theorem countKey_pos_of_get_some {d : List (K × V)} {k : K} {v : V}
    (h : dictGet d k = some v) : 1 ≤ countKey d k := by
  by_contra hc
  have h0 : countKey d k = 0 := by omega
  rw [(countKey_eq_zero_iff d k).mp h0] at h
  exact Option.noConfusion h

theorem countKey_set_of_mem {d : List (K × V)} {k : K}
    (h : dictGet d k ≠ none) (v : V) :
    countKey (dictSet d k v) k = countKey d k := by
  induction d with
  | nil => simp [dictGet] at h
  | cons p rest ih =>
    obtain ⟨k', v'⟩ := p
    by_cases hk : k' = k
    · subst hk
      simp [dictSet, countKey, List.filter]
    · rw [dictGet, if_neg hk] at h
      simp only [dictSet, if_neg hk]
      simp only [countKey, List.filter] at ih ⊢
      simp only [show (decide ((k', v').1 = k)) = false by simp [hk]]
      simpa using ih h

theorem countKey_set_of_not_mem {d : List (K × V)} {k : K}
    (h : dictGet d k = none) (v : V) :
    countKey (dictSet d k v) k = countKey d k + 1 := by
  induction d with
  | nil => simp [dictSet, countKey, List.filter]
  | cons p rest ih =>
    obtain ⟨k', v'⟩ := p
    by_cases hk : k' = k
    · subst hk
      rw [dictGet, if_pos rfl] at h
      exact Option.noConfusion h
    · rw [dictGet, if_neg hk] at h
      simp only [dictSet, if_neg hk]
      simp only [countKey, List.filter] at ih ⊢
      simp only [show (decide ((k', v').1 = k)) = false by simp [hk]]
      simpa using ih h

theorem keysOf_set_of_mem {d : List (K × V)} {k : K}
    (h : dictGet d k ≠ none) (v : V) :
    keysOf (dictSet d k v) = keysOf d := by
  induction d with
  | nil => simp [dictGet] at h
  | cons p rest ih =>
    obtain ⟨k', v'⟩ := p
    by_cases hk : k' = k
    · subst hk
      simp [dictSet, keysOf]
    · rw [dictGet, if_neg hk] at h
      simp only [dictSet, if_neg hk, keysOf, List.map_cons]
      simp only [keysOf] at ih
      rw [ih h]

end DictLemmas

/-! ### Reconciler lemmas -/

theorem applyClassDerivation_exists_props {dt : List Char} {sb : Bool}
    {b ct : _} {d : DeviceData} {props : Props} (hp : d.properties = some props) :
    ∃ props', (applyClassDerivation dt sb b ct d).properties = some props' ∧
      props'.supports_brightness = props.supports_brightness := by
  unfold applyClassDerivation
  rw [hp]
  simp only [Option.getD_some]
  by_cases h1 : dt = ZIGBEE_DEVICE_BULB
  · simp only [h1, if_true]
    by_cases h2 : sb ∧ b.isSome
    · simp only [h2, if_true]
      exact ⟨_, rfl, rfl⟩
    · simp only [h2, if_false]
      exact ⟨_, rfl, rfl⟩
  · simp only [h1, if_false]
    by_cases h3 : dt = ZIGBEE_DEVICE_SWITCH
    · simp only [h3, if_true]
      by_cases h2 : sb ∧ b.isSome
      · simp only [h2, if_true]
        cases ct <;> exact ⟨_, rfl, rfl⟩
      · simp only [h2, if_false]
        cases ct <;> exact ⟨_, rfl, rfl⟩
    · simp only [h3, if_false]
      exact ⟨props, hp, rfl⟩

theorem applyClassDerivation_device_id (dt : List Char) (sb : Bool)
    (b ct : Option Nat) (d : DeviceData) :
    (applyClassDerivation dt sb b ct d).device_id = d.device_id := by
  unfold applyClassDerivation
  split_ifs <;> cases ct <;> rfl

theorem applyClassDerivation_status (dt : List Char) (sb : Bool)
    (b ct : Option Nat) (d : DeviceData) :
    (applyClassDerivation dt sb b ct d).status = d.status := by
  unfold applyClassDerivation
  split_ifs <;> cases ct <;> rfl

theorem applyClassDerivation_category (dt : List Char) (sb : Bool)
    (b ct : Option Nat) (d : DeviceData) :
    (applyClassDerivation dt sb b ct d).category = d.category := by
  unfold applyClassDerivation
  split_ifs <;> cases ct <;> rfl

theorem handle_state_update_some (st : CoordState) (parsed : ParsedCmd)
    (now addr : Nat) (hid : parsed.device_id = some addr) :
    handle_state_update st parsed now =
      stateWriteBack st
        (resolveStateRecord st parsed.device_type addr
          (parsed.supports_brightness.getD false) now).2 addr
        (applyClassDerivation parsed.device_type
          (parsed.supports_brightness.getD false) parsed.brightness parsed.cmd_type
          (resolveStateRecord st parsed.device_type addr
            (parsed.supports_brightness.getD false) now).1) now := by
  unfold handle_state_update
  rw [hid]

theorem stateWriteBack_devices (st : CoordState)
    (dm1 : List (List Char × DeviceData)) (device_id : Nat)
    (device_data : DeviceData) (now : Nat) :
    (stateWriteBack st dm1 device_id device_data now).devices =
      dictSet st.devices device_id device_data := by
  unfold stateWriteBack
  cases device_data.device_id with
  | none => rfl
  | some dmId2 =>
    dsimp only
    cases dictGet dm1 dmId2 <;> rfl

theorem resolveStateRecord_found {st : CoordState} {dt : List Char}
    {addr : Nat} {sb : Bool} {now : Nat} {d : DeviceData} {props : Props}
    {v : Bool} (hdev : dictGet st.devices addr = some d)
    (hprops : d.properties = some props)
    (hsb : props.supports_brightness = some v) :
    resolveStateRecord st dt addr sb now = (d, st.dmDevices) := by
  unfold resolveStateRecord
  rw [hdev]
  simp [hprops, hsb]

/-- C2 (amended): `supports_brightness` is write-once, not sticky-true: once
the record's property bag holds `supports_brightness = v` (whatever `v`),
every later StateUpdate for that address leaves it `v` — in particular a
later 4-field update does not set it to `true` when an earlier 3-field
update already wrote `false`. -/
theorem c2_sb_write_once_amended (st : CoordState) (parsed : ParsedCmd)
    (now addr : Nat) (d : DeviceData) (props : Props) (v : Bool)
    (hid : parsed.device_id = some addr)
    (hdev : dictGet st.devices addr = some d)
    (hprops : d.properties = some props)
    (hsb : props.supports_brightness = some v) :
    ∃ d' props',
      dictGet (handle_state_update st parsed now).devices addr = some d' ∧
      d'.properties = some props' ∧ props'.supports_brightness = some v := by
  rw [handle_state_update_some st parsed now addr hid, stateWriteBack_devices,
    resolveStateRecord_found hdev hprops hsb]
  obtain ⟨props', hp', hsb'⟩ :=
    @applyClassDerivation_exists_props parsed.device_type
      (parsed.supports_brightness.getD false) parsed.brightness parsed.cmd_type
      d props hprops
  exact ⟨_, props', dictGet_set_self _ _ _, hp', by rw [hsb', hsb]⟩

/-- The record the update branch of `_handle_add_device` writes. -/
theorem handle_add_device_existing (st' : CoordState) (parsed : ParsedCmd)
    (a : Nat) (now : Nat) (d1 : DeviceData)
    (hid : parsed.device_id = some a)
    (hga : dictGet st'.devices a = some d1) :
    handle_add_device st' parsed now =
      { devices := dictSet st'.devices a
          { d1 with
            zigbee_id := some a, device_type := some DEVICE_TYPE_ZIGBEE,
            status := some DEVICE_STATUS_CONNECTED },
        dmDevices :=
          match dictGet st'.dmDevices (zigbeeDmId parsed.device_type a) with
          | some dmRec =>
            dictSet st'.dmDevices (zigbeeDmId parsed.device_type a)
              (dmRec.updateWith
                { d1 with
                  zigbee_id := some a, device_type := some DEVICE_TYPE_ZIGBEE,
                  status := some DEVICE_STATUS_CONNECTED })
          | none => st'.dmDevices } := by
  unfold handle_add_device
  rw [hid]
  dsimp only
  rw [hga]

/-- The repopulate-from-registry branch of `_handle_add_device`. -/
theorem handle_add_device_from_dm (st : CoordState) (parsed : ParsedCmd)
    (a : Nat) (now : Nat) (dmRec : DeviceData)
    (hid : parsed.device_id = some a)
    (h0 : dictGet st.devices a = none)
    (hdm0 : dictGet st.dmDevices (zigbeeDmId parsed.device_type a) = some dmRec) :
    handle_add_device st parsed now =
      { devices := dictSet st.devices a
          { dmRec with
            zigbee_id := some a, device_type := some DEVICE_TYPE_ZIGBEE,
            status := some DEVICE_STATUS_CONNECTED },
        dmDevices := dictSet st.dmDevices (zigbeeDmId parsed.device_type a)
          { dmRec with
            zigbee_id := some a, device_type := some DEVICE_TYPE_ZIGBEE,
            status := some DEVICE_STATUS_CONNECTED } } := by
  unfold handle_add_device
  rw [hid]
  dsimp only
  rw [h0]
  dsimp only
  rw [hdm0]

/-- When the key is new, `DeviceManager.add_device` appends one record under
that key. -/
theorem add_device_insert {dm : List (List Char × DeviceData)} {d : DeviceData}
    {k : List Char} {now : Nat} (hk : d.device_id = some k)
    (h : dictGet dm k = none) :
    ∃ rec, (add_device dm d now).2 = dictSet dm k rec := by
  unfold add_device
  rw [hk]
  dsimp only
  rw [h]
  exact ⟨_, rfl⟩

/-- The creation branch of `_handle_add_device`: one fresh record keyed by
the address in the local index, one un-merged record keyed by the composite
id in the registry. -/
theorem handle_add_device_fresh (st : CoordState) (parsed : ParsedCmd)
    (a : Nat) (now : Nat)
    (hid : parsed.device_id = some a)
    (h0 : dictGet st.devices a = none)
    (hdm0 : dictGet st.dmDevices (zigbeeDmId parsed.device_type a) = none) :
    ∃ dfirst rec, handle_add_device st parsed now =
      { devices := dictSet st.devices a dfirst,
        dmDevices := dictSet st.dmDevices (zigbeeDmId parsed.device_type a) rec } := by
  unfold handle_add_device
  rw [hid]
  dsimp only
  rw [h0]
  dsimp only
  rw [hdm0]
  dsimp only
  unfold add_device
  dsimp only
  rw [hdm0]
  exact ⟨_, _, rfl⟩

/-! ### Parse-result shape lemmas -/

theorem parseVersionedOf_command (m : ReMatchNew) :
    (parseVersionedOf m).command = m.g1 := by
  unfold parseVersionedOf
  cases m.g6 with
  | none => rfl
  | some b => dsimp only; split_ifs <;> rfl

theorem parseVersionedOf_device_id (m : ReMatchNew) :
    (parseVersionedOf m).device_id = some (digitsToNat m.g4 % 4294967296) := by
  unfold parseVersionedOf
  cases m.g6 with
  | none => rfl
  | some b => dsimp only; split_ifs <;> rfl

theorem parseVersionedOf_sb_isSome (m : ReMatchNew) :
    (parseVersionedOf m).supports_brightness.isSome = true := by
  unfold parseVersionedOf
  cases m.g6 with
  | none => rfl
  | some b => dsimp only; split_ifs <;> rfl

theorem parseLegacyOf_sb (m : ReMatchOld) :
    (parseLegacyOf m).supports_brightness = none := by
  unfold parseLegacyOf
  split_ifs <;> rfl

theorem parseLegacy_sb_none {suffix : List Char} {r : ParsedCmd}
    (h : parseLegacy suffix = some r) : r.supports_brightness = none := by
  unfold parseLegacy at h
  rw [Option.map_eq_some'] at h
  obtain ⟨m, -, rfl⟩ := h
  exact parseLegacyOf_sb m

/-- Unfolding `parse_command` through the prefix test and the grammar-trial
chain. -/
theorem parse_command_eq (line : List Char) :
    parse_command line =
      (if zigbeeCmdStart.isPrefixOf (stripChars line) = true then
        match matchNew (suffixOf line) with
        | some m =>
          if m.g1 = ZIGBEE_CMD_STATE then some (parseVersionedOf m)
          else parseLegacy (suffixOf line)
        | none => parseLegacy (suffixOf line)
      else none) := by
  unfold parse_command parseStripped suffixOf
  rfl

/-! ### `strip` idempotence -/

theorem head?_dropWhile_not (p : Char → Bool) (l : List Char) :
    ∀ c ∈ (l.dropWhile p).head?, p c = false := by
  induction l with
  | nil => simp
  | cons a t ih =>
    intro c hc
    by_cases ha : p a
    · rw [List.dropWhile_cons_of_pos ha] at hc
      exact ih c hc
    · rw [List.dropWhile_cons_of_neg ha] at hc
      simp only [List.head?_cons, Option.mem_def, Option.some.injEq] at hc
      subst hc
      simpa using ha

theorem rstrip_append_dropped (t : List Char) :
    rstripChars t ++ (t.reverse.takeWhile isSpace).reverse = t := by
  unfold rstripChars
  rw [← List.reverse_append, List.takeWhile_append_dropWhile, List.reverse_reverse]

theorem head_not_space_stripChars (s : List Char) :
    ∀ c ∈ (stripChars s).head?, isSpace c = false := by
  intro c hc
  have happ := rstrip_append_dropped (lstripChars s)
  apply head?_dropWhile_not isSpace s c
  show c ∈ (lstripChars s).head?
  cases hr : stripChars s with
  | nil =>
    rw [hr] at hc
    simp at hc
  | cons x xs =>
    rw [hr] at hc
    simp only [List.head?_cons, Option.mem_def, Option.some.injEq] at hc
    subst hc
    unfold stripChars at hr
    rw [← happ, hr]
    simp

theorem last_not_space_stripChars (s : List Char) :
    ∀ c ∈ (stripChars s).getLast?, isSpace c = false := by
  intro c hc
  unfold stripChars rstripChars at hc
  rw [List.getLast?_reverse] at hc
  exact head?_dropWhile_not isSpace _ c hc

theorem stripChars_idem (s : List Char) :
    stripChars (stripChars s) = stripChars s :=
  stripChars_of_ends (head_not_space_stripChars s) (last_not_space_stripChars s)

/-! ## Claim theorems -/

/-- C4, counterexample: the legacy grammar does not mask the parsed address.
The line `$AT+add bulb 2 2 4294967296` parses through the legacy grammar to a
command whose `device_id` is `4294967296 = 2^32`, which is not in
`[0, 2^32)` and differs from `4294967296 % 2^32 = 0`, so the claim that every
parsed numeric mesh address is masked to unsigned 32-bit for both grammars is
false. -/
theorem c4_counterexample :
    parse_command ("$AT+add bulb 2 2 4294967296".toList) =
      some { command := ['a', 'd', 'd'], device_type := ['b', 'u', 'l', 'b'],
             length := 2, type_code := some 2, device_id := some 4294967296 } ∧
    ¬ (4294967296 < 2 ^ 32) ∧ 4294967296 % 2 ^ 32 = 0 := by
  refine ⟨by decide, by decide, by decide⟩

/-- C4 (amended): only the versioned STATE grammar masks the mesh address to
unsigned 32-bit; every command it produces (recognizable by the presence of
the `supports_brightness` key) has its address in `[0, 2^32)`.  The legacy
grammar stores the parsed integer unmasked (see the counterexample). -/
theorem c4_versioned_address_masked (line : List Char) (r : ParsedCmd) (a : Nat)
    (hp : parse_command line = some r)
    (hv : r.supports_brightness.isSome = true)
    (ha : r.device_id = some a) : a < 4294967296 := by
  rw [parse_command_eq] at hp
  split at hp
  · split at hp
    · rename_i m hm
      split at hp
      · obtain rfl : parseVersionedOf m = r := by injection hp
        rw [parseVersionedOf_device_id] at ha
        obtain rfl : digitsToNat m.g4 % 4294967296 = a := by injection ha
        exact Nat.mod_lt _ (by omega)
      · rw [parseLegacy_sb_none hp] at hv
        simp at hv
    · rw [parseLegacy_sb_none hp] at hv
      simp at hv
  · exact absurd hp (by simp)

theorem c4_versioned_address_masked_witness : (7 : Nat) < 4294967296 :=
  c4_versioned_address_masked ("$AT+state bulb 3 7 1".toList)
    { command := ['s', 't', 'a', 't', 'e'], device_type := ['b', 'u', 'l', 'b'],
      length := 3, device_id := some 7, cmd_type := some 1,
      supports_brightness := some false } 7
    (by decide) (by decide) (by decide)

/-- C5: `parse_command` tries the versioned STATE grammar first and accepts
it only when the command token is `state` (part 1: every versioned-shaped
result carries the STATE command); every other accepted line comes from the
legacy grammar (part 2), and a prefixed line the versioned grammar rejects
is always handed to the legacy grammar (part 3); a line matching neither
grammar yields `none` — and only such lines do (part 4), the parser being a
total function, never an exception. -/
theorem c5_grammar_disambiguation :
    (∀ line r, parse_command line = some r →
      r.supports_brightness.isSome = true → r.command = ZIGBEE_CMD_STATE) ∧
    (∀ line r, parse_command line = some r → r.supports_brightness = none →
      parseLegacy (suffixOf line) = some r) ∧
    (∀ line, zigbeeCmdStart.isPrefixOf (stripChars line) = true →
      matchNew (suffixOf line) = none →
      parse_command line = parseLegacy (suffixOf line)) ∧
    (∀ line, parse_command line = none ↔
      (¬ zigbeeCmdStart.isPrefixOf (stripChars line) = true ∨
        ((∀ m, matchNew (suffixOf line) = some m → ¬ m.g1 = ZIGBEE_CMD_STATE) ∧
          matchOld (suffixOf line) = none))) := by
  refine ⟨?_, ?_, ?_, ?_⟩
  · intro line r hp hv
    rw [parse_command_eq] at hp
    split at hp
    · split at hp
      · rename_i m hm
        split at hp
        · rename_i hst
          obtain rfl : parseVersionedOf m = r := by injection hp
          rw [parseVersionedOf_command, hst]
        · rw [parseLegacy_sb_none hp] at hv
          simp at hv
      · rw [parseLegacy_sb_none hp] at hv
        simp at hv
    · exact absurd hp (by simp)
  · intro line r hp hnone
    rw [parse_command_eq] at hp
    split at hp
    · split at hp
      · split at hp
        · rename_i m hm hst
          obtain rfl : parseVersionedOf m = r := by injection hp
          have hs := parseVersionedOf_sb_isSome m
          rw [hnone] at hs
          simp at hs
        · exact hp
      · exact hp
    · exact absurd hp (by simp)
  · intro line hpre hmn
    rw [parse_command_eq, if_pos hpre, hmn]
  · intro line
    rw [parse_command_eq]
    constructor
    · intro hp
      split at hp
      · right
        split at hp
        · rename_i m hm
          split at hp
          · exact absurd hp (by simp)
          · rename_i hst
            refine ⟨?_, ?_⟩
            · intro m' hm'
              rw [hm] at hm'
              obtain rfl : m = m' := by injection hm'
              exact hst
            · unfold parseLegacy at hp
              rw [Option.map_eq_none'] at hp
              exact hp
        · rename_i hm
          refine ⟨fun m' hm' => absurd hm' (by rw [hm]; simp), ?_⟩
          unfold parseLegacy at hp
          rw [Option.map_eq_none'] at hp
          exact hp
      · left
        assumption
    · intro h
      rcases h with h | ⟨hall, hold⟩
      · rw [if_neg h]
      · have hleg : parseLegacy (suffixOf line) = none := by
          unfold parseLegacy
          rw [hold]
          rfl
        split
        · split
          · rename_i m hm
            rw [if_neg (hall m hm)]
            exact hleg
          · exact hleg
        · rfl

theorem c5_grammar_disambiguation_witness :
    ({ command := ZIGBEE_CMD_STATE, device_type := ZIGBEE_DEVICE_SWITCH,
       length := 3, device_id := some 7, cmd_type := some 1,
       supports_brightness := some false } : ParsedCmd).command = ZIGBEE_CMD_STATE ∧
    parseLegacy (suffixOf "$AT+add bulb 2 2 1".toList) =
      some { command := ['a', 'd', 'd'], device_type := ['b', 'u', 'l', 'b'],
             length := 2, type_code := some 2, device_id := some 1 } ∧
    parse_command ("$AT+state bulb 3 7".toList) =
      parseLegacy (suffixOf "$AT+state bulb 3 7".toList) ∧
    parse_command ("hello world".toList) = none :=
  ⟨c5_grammar_disambiguation.1 ("$AT+state sw 3 7 1".toList) _ (by decide) (by decide),
   c5_grammar_disambiguation.2.1 ("$AT+add bulb 2 2 1".toList) _ (by decide) (by decide),
   c5_grammar_disambiguation.2.2.1 ("$AT+state bulb 3 7".toList) (by decide) (by decide),
   (c5_grammar_disambiguation.2.2.2 ("hello world".toList)).mpr (Or.inl (by decide))⟩

/-- C10: `parse_command` is invariant under surrounding whitespace — parsing
any line gives the same result as parsing its stripped form — and in
particular a line whose `$AT` prefix is preceded by whitespace is still
parsed. -/
theorem c10_strip_invariant :
    (∀ line, parse_command line = parse_command (stripChars line)) ∧
    parse_command ("  \t$AT+add bulb 2 2 7".toList) =
      some { command := ['a', 'd', 'd'], device_type := ['b', 'u', 'l', 'b'],
             length := 2, type_code := some 2, device_id := some 7 } ∧
    ¬ ("$AT".toList.isPrefixOf ("  \t$AT+add bulb 2 2 7".toList) = true) := by
  refine ⟨?_, by decide, by decide⟩
  intro line
  show parseStripped (stripChars line) = parseStripped (stripChars (stripChars line))
  rw [stripChars_idem]

theorem c2_sb_write_once_amended_witness :
    ∃ d' props',
      dictGet (handle_state_update
        ⟨[(5, { properties := some { switch_state := some false, light_state := some false, supports_brightness := some false } })], []⟩
        { command := ['s', 't', 'a', 't', 'e'], device_type := ['b', 'u', 'l', 'b'],
          length := 4, device_id := some 5, cmd_type := some 1,
          supports_brightness := some true, brightness := some 200 } 9).devices 5 =
          some d' ∧
      d'.properties = some props' ∧ props'.supports_brightness = some false :=
  c2_sb_write_once_amended
    ⟨[(5, { properties := some { switch_state := some false, light_state := some false, supports_brightness := some false } })], []⟩
    { command := ['s', 't', 'a', 't', 'e'], device_type := ['b', 'u', 'l', 'b'],
      length := 4, device_id := some 5, cmd_type := some 1,
      supports_brightness := some true, brightness := some 200 } 9 5
    { properties := some { switch_state := some false, light_state := some false, supports_brightness := some false } }
    { switch_state := some false, light_state := some false, supports_brightness := some false }
    false (by decide) (by decide) (by decide) (by decide)

/-- C2, counterexample: brightness support is not sticky-true.  Starting
from an empty state, handle the Add for bulb address 5, then the 3-field
StateUpdate parsed from `$AT+state bulb 3 5 1`, then the 4-field StateUpdate
parsed from `$AT+state bulb 4 5 1 200` (which carries `length == 4`): the
record's `supports_brightness` is still `false` afterwards, because the
handler only writes the property when it is absent.  The claim that a
4-field update makes it `true` from then on is therefore false. -/
theorem c2_counterexample :
    parse_command ("$AT+state bulb 3 5 1".toList) =
      some { command := ['s', 't', 'a', 't', 'e'], device_type := ['b', 'u', 'l', 'b'],
             length := 3, device_id := some 5, cmd_type := some 1,
             supports_brightness := some false } ∧
    parse_command ("$AT+state bulb 4 5 1 200".toList) =
      some { command := ['s', 't', 'a', 't', 'e'], device_type := ['b', 'u', 'l', 'b'],
             length := 4, device_id := some 5, cmd_type := some 1,
             supports_brightness := some true, brightness := some 200 } ∧
    ((dictGet (handle_state_update
        (handle_state_update
          (handle_add_device ⟨[], []⟩
            { command := ['a', 'd', 'd'], device_type := ['b', 'u', 'l', 'b'],
              length := 2, type_code := some 2, device_id := some 5 } 0)
          { command := ['s', 't', 'a', 't', 'e'], device_type := ['b', 'u', 'l', 'b'],
            length := 3, device_id := some 5, cmd_type := some 1,
            supports_brightness := some false } 1)
        { command := ['s', 't', 'a', 't', 'e'], device_type := ['b', 'u', 'l', 'b'],
          length := 4, device_id := some 5, cmd_type := some 1,
          supports_brightness := some true, brightness := some 200 } 2).devices
        5).bind DeviceData.properties).map Props.supports_brightness =
      some (some false) ∧
    ((dictGet (handle_state_update
        (handle_state_update
          (handle_add_device ⟨[], []⟩
            { command := ['a', 'd', 'd'], device_type := ['b', 'u', 'l', 'b'],
              length := 2, type_code := some 2, device_id := some 5 } 0)
          { command := ['s', 't', 'a', 't', 'e'], device_type := ['b', 'u', 'l', 'b'],
            length := 3, device_id := some 5, cmd_type := some 1,
            supports_brightness := some false } 1)
        { command := ['s', 't', 'a', 't', 'e'], device_type := ['b', 'u', 'l', 'b'],
          length := 4, device_id := some 5, cmd_type := some 1,
          supports_brightness := some true, brightness := some 200 } 2).devices
        5).bind DeviceData.properties).map Props.supports_brightness ≠
      some (some true) := by
  refine ⟨by decide, by decide, by decide, by decide⟩

/-- C1, counterexample: the Pair round trip fails.  `build_command` produces
`$AT+pair\r\n` (as `send_pairing_command` does, with an empty class), but
`parse_command` on that line returns `none` — the suffix `+pair` matches
neither grammar — so no Command equivalent to the Pair command is
recovered. -/
theorem c1_counterexample_pair :
    build_command ZIGBEE_CMD_PAIR [] none none none = "$AT+pair\r\n".toList ∧
    parse_command (build_command ZIGBEE_CMD_PAIR [] none none none) = none := by
  refine ⟨by decide, by decide⟩

/-- C1 (amended): the round trip `parse ∘ build` recovers an equivalent
command — same kind, class, address, subtype/state and brightness, modulo
the wire-format-generation tag — for Add, Delete and StateUpdate commands
(with the mesh address below `2^32 = 4294967296` for StateUpdate, whose
grammar masks it, and brightness within the data model's 0-255 range); the
Pair command is excluded, its built line being unparseable (see the
counterexample). -/
theorem c1_roundtrip_amended :
    (∀ cls, (cls = ZIGBEE_DEVICE_BULB ∨ cls = ZIGBEE_DEVICE_SWITCH) → ∀ n : Nat,
      parse_command (build_command ZIGBEE_CMD_ADD cls (some (n : Int)) none none) =
        some { command := ZIGBEE_CMD_ADD, device_type := cls, length := 2,
               type_code := some (if cls = ZIGBEE_DEVICE_BULB then 2 else 3),
               device_id := some n }) ∧
    (∀ cls, (cls = ZIGBEE_DEVICE_BULB ∨ cls = ZIGBEE_DEVICE_SWITCH) →
      parse_command (build_command ZIGBEE_CMD_DEL cls none none none) =
        some { command := ZIGBEE_CMD_DEL, device_type := cls, length := 1,
               type_code := some (if cls = ZIGBEE_DEVICE_BULB then 2 else 3) }) ∧
    (∀ cls, (cls = ZIGBEE_DEVICE_BULB ∨ cls = ZIGBEE_DEVICE_SWITCH) →
      ∀ n : Nat, n < 4294967296 → ∀ st : Option Bool,
      parse_command (build_command ZIGBEE_CMD_STATE cls (some (n : Int)) st none) =
        some { command := ZIGBEE_CMD_STATE, device_type := cls, length := 3,
               device_id := some n,
               cmd_type := some (if st = some true then 1 else 0),
               supports_brightness := some false }) ∧
    (∀ cls, (cls = ZIGBEE_DEVICE_BULB ∨ cls = ZIGBEE_DEVICE_SWITCH) →
      ∀ n : Nat, n < 4294967296 → ∀ st : Option Bool, ∀ b : Nat, b ≤ 255 →
      parse_command (build_command ZIGBEE_CMD_STATE cls (some (n : Int)) st
          (some (b : Int))) =
        some { command := ZIGBEE_CMD_STATE, device_type := cls, length := 4,
               device_id := some n,
               cmd_type := some (if st = some true then 1 else 0),
               supports_brightness := some true, brightness := some b }) :=
  ⟨fun cls h n => roundtrip_add cls h n,
   fun cls h => roundtrip_del cls h,
   fun cls h n hn st => roundtrip_state3 cls h n hn st,
   fun cls h n hn st b hb => roundtrip_state4 cls h n hn st b hb⟩

theorem c1_roundtrip_amended_witness :
    parse_command (build_command ZIGBEE_CMD_ADD ZIGBEE_DEVICE_BULB (some 1) none none) =
      some { command := ZIGBEE_CMD_ADD, device_type := ZIGBEE_DEVICE_BULB, length := 2,
             type_code := some (if ZIGBEE_DEVICE_BULB = ZIGBEE_DEVICE_BULB then 2 else 3),
             device_id := some 1 } ∧
    parse_command (build_command ZIGBEE_CMD_STATE ZIGBEE_DEVICE_SWITCH (some 55424)
        (some true) (some 128)) =
      some { command := ZIGBEE_CMD_STATE, device_type := ZIGBEE_DEVICE_SWITCH, length := 4,
             device_id := some 55424,
             cmd_type := some (if (some true : Option Bool) = some true then 1 else 0),
             supports_brightness := some true, brightness := some 128 } :=
  ⟨c1_roundtrip_amended.1 ZIGBEE_DEVICE_BULB (Or.inl rfl) 1,
   c1_roundtrip_amended.2.2.2 ZIGBEE_DEVICE_SWITCH (Or.inr rfl) 55424 (by decide)
     (some true) 128 (by decide)⟩

/-- C6: the frame reader is invariant under fragmentation — feeding chunks
one at a time (from a terminator-free buffer, the read loop's invariant)
emits exactly the lines of feeding the concatenation in one call, with the
same retained remainder (part 1); every emitted line is free of the CRLF
terminator and non-blank after trimming (part 2); the retained remainder is
un-terminated (part 3); and re-attaching the terminator to each split-off
line and appending the remainder reconstructs the input, so the remainder
retains everything after the last terminator (part 4). -/
theorem c6_frame_reader_invariance :
    (∀ buf chunks, splitFirstTerm buf = none →
      feedAll buf chunks = feedChunk buf chunks.flatten) ∧
    (∀ buf data l, l ∈ (feedChunk buf data).1 →
      splitFirstTerm l = none ∧ (stripChars l).isEmpty = false) ∧
    (∀ buf data, splitFirstTerm (feedChunk buf data).2 = none) ∧
    (∀ buf data,
      ((extractLines (buf ++ data)).1.map (fun l => l ++ serialLineEnding)).flatten ++
        (feedChunk buf data).2 = buf ++ data) := by
  refine ⟨fun buf chunks h => feedAll_eq_feedChunk_join h chunks, ?_, ?_, ?_⟩
  · intro buf data l hl
    unfold feedChunk at hl
    dsimp only at hl
    rw [List.mem_filter] at hl
    obtain ⟨hmem, hpred⟩ := hl
    refine ⟨extractLines_lines_no_term l hmem, ?_⟩
    simpa using hpred
  · intro buf data
    exact extractLines_rest_no_term
  · intro buf data
    exact extractLines_reconstruct (buf ++ data)

theorem c6_frame_reader_invariance_witness :
    feedAll [] ["ab\r".toList, "\ncd".toList] =
      feedChunk [] (["ab\r".toList, "\ncd".toList].flatten) ∧
    (splitFirstTerm ("ab".toList) = none ∧
      (stripChars ("ab".toList)).isEmpty = false) :=
  ⟨c6_frame_reader_invariance.1 [] ["ab\r".toList, "\ncd".toList] (by decide),
   c6_frame_reader_invariance.2.1 [] ("ab\r\ncd".toList) ("ab".toList) (by decide)⟩

/-- C9: handling a Delete command only renders a log message and mutates no
state — the local address index and the registry map are unchanged for every
state and every parsed command. -/
theorem c9_delete_only_logs (st : CoordState) (parsed : ParsedCmd) :
    (handle_delete_device st parsed).1 = st ∧
    (handle_delete_device st parsed).1.devices = st.devices ∧
    (handle_delete_device st parsed).1.dmDevices = st.dmDevices :=
  ⟨rfl, rfl, rfl⟩

/-- C3, counterexample: the outbound control path does not report failure to
the caller as a boolean/error result.  With the link not open the command is
dropped (nothing written, an error is logged), yet the caller-visible return
value is `none` (Python `None`) — exactly the value the successful open-link
path returns — so no boolean/error result distinguishes failure from
success. -/
theorem c3_counterexample :
    (send_control_command ⟨true, false, [], []⟩ 7 ZIGBEE_DEVICE_BULB true none).2 = none ∧
    (send_control_command ⟨true, true, [], []⟩ 7 ZIGBEE_DEVICE_BULB true none).2 = none ∧
    (send_control_command ⟨true, false, [], []⟩ 7 ZIGBEE_DEVICE_BULB true none).1.written = [] ∧
    (send_control_command ⟨true, false, [], []⟩ 7 ZIGBEE_DEVICE_BULB true none).1.errorLog ≠ [] ∧
    (send_control_command ⟨true, true, [], []⟩ 7 ZIGBEE_DEVICE_BULB true none).1.written ≠ [] := by
  refine ⟨by decide, by decide, by decide, by decide, by decide⟩

/-- C3 (amended): when the link is not open, `send_control_command` drops
the command loudly — nothing is written and an error is logged — but the
caller receives `none` (Python `None`), the same value the success path
returns: the failure is reported only in the log, never as a boolean/error
result. -/
theorem c3_send_failure_logged_not_returned (s : SerialState) (device_id : Int)
    (device_type : List Char) (st : Bool) (b : Option Int)
    (h : (s.connExists && s.isOpen) = false) :
    (send_control_command s device_id device_type st b).2 = none ∧
    (send_control_command s device_id device_type st b).1.written = s.written ∧
    (send_control_command s device_id device_type st b).1.errorLog =
      s.errorLog ++ ["Serial connection not open - cannot write".toList] := by
  unfold send_control_command write_serial
  rw [h]
  exact ⟨rfl, rfl, rfl⟩

theorem c3_send_failure_logged_not_returned_witness :
    (send_control_command ⟨false, false, [], []⟩ 3 ZIGBEE_DEVICE_SWITCH false none).2 = none ∧
    (send_control_command ⟨false, false, [], []⟩ 3 ZIGBEE_DEVICE_SWITCH false none).1.written =
      (⟨false, false, [], []⟩ : SerialState).written ∧
    (send_control_command ⟨false, false, [], []⟩ 3 ZIGBEE_DEVICE_SWITCH false none).1.errorLog =
      (⟨false, false, [], []⟩ : SerialState).errorLog ++
        ["Serial connection not open - cannot write".toList] :=
  c3_send_failure_logged_not_returned ⟨false, false, [], []⟩ 3 ZIGBEE_DEVICE_SWITCH
    false none (by decide)

/-- After a first Add has installed one record under the address and one
under the composite key, a second identical Add updates in place: one record
each, Connected status, no new keys. -/
theorem c7_after_first (stD : List (Nat × DeviceData))
    (stM : List (List Char × DeviceData)) (parsed : ParsedCmd)
    (a now : Nat) (d1 rec1 : DeviceData)
    (hid : parsed.device_id = some a)
    (hcA : countKey (dictSet stD a d1) a = 1)
    (hcM : countKey (dictSet stM (zigbeeDmId parsed.device_type a) rec1)
      (zigbeeDmId parsed.device_type a) = 1) :
    countKey (handle_add_device
      ⟨dictSet stD a d1, dictSet stM (zigbeeDmId parsed.device_type a) rec1⟩
      parsed now).devices a = 1 ∧
    countKey (handle_add_device
      ⟨dictSet stD a d1, dictSet stM (zigbeeDmId parsed.device_type a) rec1⟩
      parsed now).dmDevices (zigbeeDmId parsed.device_type a) = 1 ∧
    (∃ r, dictGet (handle_add_device
      ⟨dictSet stD a d1, dictSet stM (zigbeeDmId parsed.device_type a) rec1⟩
      parsed now).devices a = some r ∧ r.status = some DEVICE_STATUS_CONNECTED) ∧
    keysOf (handle_add_device
      ⟨dictSet stD a d1, dictSet stM (zigbeeDmId parsed.device_type a) rec1⟩
      parsed now).devices = keysOf (dictSet stD a d1) ∧
    keysOf (handle_add_device
      ⟨dictSet stD a d1, dictSet stM (zigbeeDmId parsed.device_type a) rec1⟩
      parsed now).dmDevices =
      keysOf (dictSet stM (zigbeeDmId parsed.device_type a) rec1) := by
  have hga1 : dictGet
      ((⟨dictSet stD a d1, dictSet stM (zigbeeDmId parsed.device_type a) rec1⟩ :
        CoordState)).devices a = some d1 := dictGet_set_self _ _ _
  have hst2 := handle_add_device_existing
    ⟨dictSet stD a d1, dictSet stM (zigbeeDmId parsed.device_type a) rec1⟩
    parsed a now d1 hid hga1
  dsimp only at hst2
  rw [dictGet_set_self stM (zigbeeDmId parsed.device_type a) rec1] at hst2
  rw [hst2]
  dsimp only
  refine ⟨?_, ?_, ⟨_, dictGet_set_self _ _ _, rfl⟩, ?_, ?_⟩
  · rw [countKey_set_of_mem (by rw [dictGet_set_self]; simp) _, hcA]
  · rw [countKey_set_of_mem (by rw [dictGet_set_self]; simp) _, hcM]
  · exact keysOf_set_of_mem (by rw [dictGet_set_self]; simp) _
  · exact keysOf_set_of_mem (by rw [dictGet_set_self]; simp) _

/-- C7: reconciler upsert is idempotent.  From any dict state in which the
mesh address is unknown to the local index (and the registry is a real dict
at the composite key: at most one binding), applying the same Add twice
leaves exactly one record for the address in the local index and exactly one
entry under the composite key in the registry, the record's status is
Connected after the second application, and the second application creates
no key in either map (an Add for an existing address only updates). -/
theorem c7_add_upsert_idempotent (st : CoordState) (parsed : ParsedCmd)
    (a now1 now2 : Nat)
    (hid : parsed.device_id = some a)
    (h0 : dictGet st.devices a = none)
    (hdm : countKey st.dmDevices (zigbeeDmId parsed.device_type a) ≤ 1) :
    countKey (handle_add_device (handle_add_device st parsed now1) parsed now2).devices a = 1 ∧
    countKey (handle_add_device (handle_add_device st parsed now1) parsed now2).dmDevices
      (zigbeeDmId parsed.device_type a) = 1 ∧
    (∃ r, dictGet (handle_add_device (handle_add_device st parsed now1) parsed now2).devices a =
        some r ∧ r.status = some DEVICE_STATUS_CONNECTED) ∧
    keysOf (handle_add_device (handle_add_device st parsed now1) parsed now2).devices =
      keysOf (handle_add_device st parsed now1).devices ∧
    keysOf (handle_add_device (handle_add_device st parsed now1) parsed now2).dmDevices =
      keysOf (handle_add_device st parsed now1).dmDevices := by
  have hz : countKey st.devices a = 0 := (countKey_eq_zero_iff _ _).mpr h0
  cases hdm0 : dictGet st.dmDevices (zigbeeDmId parsed.device_type a) with
  | some dmRec =>
    have hst1 := handle_add_device_from_dm st parsed a now1 dmRec hid h0 hdm0
    rw [hst1]
    have hcA : countKey (dictSet st.devices a
        { dmRec with
          zigbee_id := some a, device_type := some DEVICE_TYPE_ZIGBEE,
          status := some DEVICE_STATUS_CONNECTED }) a = 1 := by
      rw [countKey_set_of_not_mem h0, hz]
    have hcM : countKey (dictSet st.dmDevices (zigbeeDmId parsed.device_type a)
        { dmRec with
          zigbee_id := some a, device_type := some DEVICE_TYPE_ZIGBEE,
          status := some DEVICE_STATUS_CONNECTED }) (zigbeeDmId parsed.device_type a) = 1 := by
      rw [countKey_set_of_mem (by rw [hdm0]; simp) _]
      have := countKey_pos_of_get_some hdm0
      omega
    exact c7_after_first st.devices st.dmDevices parsed a now2 _ _ hid hcA hcM
  | none =>
    obtain ⟨d1, rec1, hst1⟩ := handle_add_device_fresh st parsed a now1 hid h0 hdm0
    rw [hst1]
    have hcA : countKey (dictSet st.devices a d1) a = 1 := by
      rw [countKey_set_of_not_mem h0, hz]
    have hcM : countKey (dictSet st.dmDevices (zigbeeDmId parsed.device_type a) rec1)
        (zigbeeDmId parsed.device_type a) = 1 := by
      rw [countKey_set_of_not_mem hdm0, (countKey_eq_zero_iff _ _).mpr hdm0]
    exact c7_after_first st.devices st.dmDevices parsed a now2 d1 rec1 hid hcA hcM

theorem c7_add_upsert_idempotent_witness :
    countKey (handle_add_device (handle_add_device ⟨[], []⟩
      { command := ['a', 'd', 'd'], device_type := ['b', 'u', 'l', 'b'],
        length := 2, type_code := some 2, device_id := some 5 } 0)
      { command := ['a', 'd', 'd'], device_type := ['b', 'u', 'l', 'b'],
        length := 2, type_code := some 2, device_id := some 5 } 1).devices 5 = 1 ∧
    countKey (handle_add_device (handle_add_device ⟨[], []⟩
      { command := ['a', 'd', 'd'], device_type := ['b', 'u', 'l', 'b'],
        length := 2, type_code := some 2, device_id := some 5 } 0)
      { command := ['a', 'd', 'd'], device_type := ['b', 'u', 'l', 'b'],
        length := 2, type_code := some 2, device_id := some 5 } 1).dmDevices
      (zigbeeDmId ['b', 'u', 'l', 'b'] 5) = 1 ∧
    (∃ r, dictGet (handle_add_device (handle_add_device ⟨[], []⟩
      { command := ['a', 'd', 'd'], device_type := ['b', 'u', 'l', 'b'],
        length := 2, type_code := some 2, device_id := some 5 } 0)
      { command := ['a', 'd', 'd'], device_type := ['b', 'u', 'l', 'b'],
        length := 2, type_code := some 2, device_id := some 5 } 1).devices 5 =
        some r ∧ r.status = some DEVICE_STATUS_CONNECTED) ∧
    keysOf (handle_add_device (handle_add_device ⟨[], []⟩
      { command := ['a', 'd', 'd'], device_type := ['b', 'u', 'l', 'b'],
        length := 2, type_code := some 2, device_id := some 5 } 0)
      { command := ['a', 'd', 'd'], device_type := ['b', 'u', 'l', 'b'],
        length := 2, type_code := some 2, device_id := some 5 } 1).devices =
      keysOf (handle_add_device ⟨[], []⟩
        { command := ['a', 'd', 'd'], device_type := ['b', 'u', 'l', 'b'],
          length := 2, type_code := some 2, device_id := some 5 } 0).devices ∧
    keysOf (handle_add_device (handle_add_device ⟨[], []⟩
      { command := ['a', 'd', 'd'], device_type := ['b', 'u', 'l', 'b'],
        length := 2, type_code := some 2, device_id := some 5 } 0)
      { command := ['a', 'd', 'd'], device_type := ['b', 'u', 'l', 'b'],
        length := 2, type_code := some 2, device_id := some 5 } 1).dmDevices =
      keysOf (handle_add_device ⟨[], []⟩
        { command := ['a', 'd', 'd'], device_type := ['b', 'u', 'l', 'b'],
          length := 2, type_code := some 2, device_id := some 5 } 0).dmDevices :=
  c7_add_upsert_idempotent ⟨[], []⟩
    { command := ['a', 'd', 'd'], device_type := ['b', 'u', 'l', 'b'],
      length := 2, type_code := some 2, device_id := some 5 } 5 0 1
    (by decide) (by decide) (by decide)

/-- A StateUpdate for an address unknown to the empty state auto-creates
exactly one Connected record with the class-derived category, in both
maps. -/
theorem state_update_autocreates (dt : List Char) (addr ct len now : Nat)
    (sb : Bool) (b : Option Nat) :
    countKey (handle_state_update ⟨[], []⟩
      { command := ZIGBEE_CMD_STATE, device_type := dt, length := len,
        device_id := some addr, cmd_type := some ct,
        supports_brightness := some sb, brightness := b } now).devices addr = 1 ∧
    countKey (handle_state_update ⟨[], []⟩
      { command := ZIGBEE_CMD_STATE, device_type := dt, length := len,
        device_id := some addr, cmd_type := some ct,
        supports_brightness := some sb, brightness := b } now).dmDevices
      (zigbeeDmId dt addr) = 1 ∧
    (∃ r, dictGet (handle_state_update ⟨[], []⟩
      { command := ZIGBEE_CMD_STATE, device_type := dt, length := len,
        device_id := some addr, cmd_type := some ct,
        supports_brightness := some sb, brightness := b } now).devices addr = some r ∧
      r.status = some DEVICE_STATUS_CONNECTED ∧
      r.category = some (if dt = ZIGBEE_DEVICE_BULB then DEVICE_CATEGORY_LIGHT
        else DEVICE_CATEGORY_SWITCH)) := by
  rw [handle_state_update_some _ _ now addr rfl]
  dsimp only
  unfold resolveStateRecord
  dsimp only [dictGet]
  unfold add_device
  dsimp only [dictGet, dictSet, Option.getD_some]
  rw [stateWriteBack_devices]
  refine ⟨?_, ?_, ⟨_, dictGet_set_self _ _ _, ?_, ?_⟩⟩
  · simp [dictSet, countKey, List.filter]
  · simp [stateWriteBack, applyClassDerivation_device_id, dictGet, dictSet,
      countKey, List.filter]
  · rw [applyClassDerivation_status]
  · rw [applyClassDerivation_category]

/-- C8: a StateUpdate for an unknown address auto-creates exactly one
Connected device record with the category derived from the class (part 1,
general: one record in each map, status Connected, bulb giving the Light
category and anything else the Switch category); concretely, a 3-field bulb
StateUpdate for address 55424 with subtype 1 ("on") creates one Light-category
record with `light_state = true` (part 2); and the line `$AT+state sw 3 7 1`
parses to a StateUpdate with class switch, address 7, subtype 1, which
reconciled against the empty state creates a Switch-category record with
`switch_state = true` (part 3). -/
theorem c8_state_update_autocreate :
    (∀ (dt : List Char) (addr ct len now : Nat) (sb : Bool) (b : Option Nat),
      countKey (handle_state_update ⟨[], []⟩
        { command := ZIGBEE_CMD_STATE, device_type := dt, length := len,
          device_id := some addr, cmd_type := some ct,
          supports_brightness := some sb, brightness := b } now).devices addr = 1 ∧
      countKey (handle_state_update ⟨[], []⟩
        { command := ZIGBEE_CMD_STATE, device_type := dt, length := len,
          device_id := some addr, cmd_type := some ct,
          supports_brightness := some sb, brightness := b } now).dmDevices
        (zigbeeDmId dt addr) = 1 ∧
      (∃ r, dictGet (handle_state_update ⟨[], []⟩
        { command := ZIGBEE_CMD_STATE, device_type := dt, length := len,
          device_id := some addr, cmd_type := some ct,
          supports_brightness := some sb, brightness := b } now).devices addr = some r ∧
        r.status = some DEVICE_STATUS_CONNECTED ∧
        r.category = some (if dt = ZIGBEE_DEVICE_BULB then DEVICE_CATEGORY_LIGHT
          else DEVICE_CATEGORY_SWITCH))) ∧
    (countKey (handle_state_update ⟨[], []⟩
        { command := ZIGBEE_CMD_STATE, device_type := ['b', 'u', 'l', 'b'], length := 3,
          device_id := some 55424, cmd_type := some 1,
          supports_brightness := some false } 0).devices 55424 = 1 ∧
      (dictGet (handle_state_update ⟨[], []⟩
        { command := ZIGBEE_CMD_STATE, device_type := ['b', 'u', 'l', 'b'], length := 3,
          device_id := some 55424, cmd_type := some 1,
          supports_brightness := some false } 0).devices 55424).bind
        DeviceData.category = some DEVICE_CATEGORY_LIGHT ∧
      ((dictGet (handle_state_update ⟨[], []⟩
        { command := ZIGBEE_CMD_STATE, device_type := ['b', 'u', 'l', 'b'], length := 3,
          device_id := some 55424, cmd_type := some 1,
          supports_brightness := some false } 0).devices 55424).bind
        DeviceData.properties).map Props.light_state = some (some true) ∧
      (dictGet (handle_state_update ⟨[], []⟩
        { command := ZIGBEE_CMD_STATE, device_type := ['b', 'u', 'l', 'b'], length := 3,
          device_id := some 55424, cmd_type := some 1,
          supports_brightness := some false } 0).devices 55424).bind
        DeviceData.status = some DEVICE_STATUS_CONNECTED) ∧
    (parse_command ("$AT+state sw 3 7 1".toList) =
        some { command := ['s', 't', 'a', 't', 'e'],
               device_type := ['s', 'w', 'i', 't', 'c', 'h'], length := 3,
               device_id := some 7, cmd_type := some 1,
               supports_brightness := some false } ∧
      countKey (handle_state_update ⟨[], []⟩
        { command := ['s', 't', 'a', 't', 'e'],
          device_type := ['s', 'w', 'i', 't', 'c', 'h'], length := 3,
          device_id := some 7, cmd_type := some 1,
          supports_brightness := some false } 0).devices 7 = 1 ∧
      (dictGet (handle_state_update ⟨[], []⟩
        { command := ['s', 't', 'a', 't', 'e'],
          device_type := ['s', 'w', 'i', 't', 'c', 'h'], length := 3,
          device_id := some 7, cmd_type := some 1,
          supports_brightness := some false } 0).devices 7).bind
        DeviceData.category = some DEVICE_CATEGORY_SWITCH ∧
      ((dictGet (handle_state_update ⟨[], []⟩
        { command := ['s', 't', 'a', 't', 'e'],
          device_type := ['s', 'w', 'i', 't', 'c', 'h'], length := 3,
          device_id := some 7, cmd_type := some 1,
          supports_brightness := some false } 0).devices 7).bind
        DeviceData.properties).map Props.switch_state = some (some true)) := by
  refine ⟨state_update_autocreates, ⟨?_, ?_, ?_, ?_⟩, ⟨?_, ?_, ?_, ?_⟩⟩
  · decide
  · decide
  · decide
  · decide
  · decide
  · decide
  · decide
  · decide

end GemnsZigbee
